import Mathlib

/-!
Shallow embedding of the `reee` EEE messaging core (Supervisor, Environment,
Entity, Trigger) for checking the repository's specification.

The embedding is sequential: each cooperative task's `poll` is a pure state
transition, channels are FIFO lists, the `bus` broadcaster is an append-only
log with one cursor per reader, and waker notifications are counted.  Shared
`Arc<Mutex<...>>` objects live in explicit stores (association lists keyed by
an id), and handles are ids into those stores.

Code that the repository uses but that is not present under `src/`
(`EntityHost` with core injection, the `constants` module, the listener-poll
semantics of the tokio watch channel) is modelled from the specification;
every such definition carries a doc comment starting `Modelled from the
spec:`.  Everything else is translated directly from the Rust sources.
-/

namespace Reee
/-- Effects (src/src/eee/effect.rs).  The fixed-size byte/tryte/trit variants
of the source enum carry the same payload kinds as the unsized ones and are
represented here by the unsized constructors. -/
inductive Effect where
  | Empty : Effect
  | Ascii (s : String) : Effect
  | Bytes (bs : List Nat) : Effect
  | Trytes (ts : List Char) : Effect
  | Trits (ts : List Int) : Effect
deriving DecidableEq

/-- Errors (src/src/errors.rs).  The payloads of the send/io variants are
irrelevant to the claims and omitted. -/
inductive Error where
  | App (msg : String) : Error
  | EffectSend : Error
  | TriggerSend : Error
  | Io : Error
deriving DecidableEq

/-- Result of polling a future (`Ok(Async::Ready _)` / `Ok(Async::NotReady)`);
the poll protocols under verification never return the error variant. -/
inductive Async (α : Type) where
  | Ready (value : α) : Async α
  | NotReady : Async α
deriving DecidableEq

/- ----------------------------------------------------------------
Association lists standing in for `std::collections::HashMap` (and for the
registries of shared objects).  Entries are kept in insertion order; keys are
unique in every reachable state.
---------------------------------------------------------------- -/

/-- `HashMap::get` / `contains_key`: find the value under the first matching
key. -/
def alFind {α β : Type} [DecidableEq α] (k : α) : List (α × β) → Option β
  | [] => none
  | (k₁, v) :: rest => if k₁ = k then some v else alFind k rest

/-- Update the value stored under key `k` in place (no-op when absent). -/
def alUpdate {α β : Type} [DecidableEq α] (k : α) (f : β → β) :
    List (α × β) → List (α × β)
  | [] => []
  | (k₁, v) :: rest =>
      if k₁ = k then (k₁, f v) :: rest else (k₁, v) :: alUpdate k f rest

/-- `HashMap::remove`: drop the first entry with key `k`. -/
def alErase {α β : Type} [DecidableEq α] (k : α) : List (α × β) → List (α × β)
  | [] => []
  | (k₁, v) :: rest => if k₁ = k then rest else (k₁, v) :: alErase k rest

/- ----------------------------------------------------------------
Trigger (src/src/common/trigger.rs): a `tokio::sync::watch` channel of `bool`
initialised to `false`; `pull` broadcasts `true`.
---------------------------------------------------------------- -/

/-- Trigger (src/src/common/trigger.rs): the state of the watch channel's
cell, initially `false`. -/
structure Trigger where
  armed : Bool
deriving DecidableEq

/-- `Trigger::new`: the cell starts unarmed (`watch::channel(false)`). -/
def Trigger.new : Trigger := ⟨false⟩

/-- `Trigger::pull`: `self.trigger.broadcast(true)`. -/
def Trigger.pull (_t : Trigger) : Trigger := ⟨true⟩

/-- `TriggerHandle` (a clone of the watch receiver).  In this level-triggered
model a handle carries no state of its own; polling reads the trigger's
current cell. -/
structure TriggerHandle where
deriving DecidableEq

/-- `Trigger::get_handle`: `TriggerHandle(self.handle.clone())`. -/
def Trigger.get_handle (_t : Trigger) : TriggerHandle := ⟨⟩

/-- Modelled from the spec: the listener's poll is implemented by the tokio
watch dependency, whose source is not part of this repository.  Section 4.1
specifies a level-triggered watched boolean: a poll yields `Ready` with the
current value (the source notes the channel always yields `Some`), and after
`pull` every poll yields `Ready(Some(true))`. -/
def TriggerHandle.poll (_h : TriggerHandle) (t : Trigger) : Async (Option Bool) :=
  .Ready (some t.armed)

/-- The results of `n` consecutive polls of one listener (the trigger is not
changed by polling). -/
def TriggerHandle.pollTrace (h : TriggerHandle) (t : Trigger) : Nat → List (Async (Option Bool))
  | 0 => []
  | n + 1 => h.poll t :: h.pollTrace t n

/- ----------------------------------------------------------------
Environment (src/src/eee/environment.rs).
---------------------------------------------------------------- -/

/-- Mutable state of one Environment (src/src/eee/environment.rs).  Channels:
`in_chan` is the pending queue of the unbounded crossbeam receiver (head =
oldest); `out_log` is the append-only log of everything broadcast on the
`bus` broadcaster, each reader holding its own cursor into it.  Entities are
referred to by uuid; `notify_count` counts `notify()` calls on this
environment's waker. -/
structure EnvState where
  name : String
  joined_entities : List String
  affecting_entities : List String
  in_chan : List Effect
  out_log : List Effect
  drop_notifier : Trigger
  num_received_effects : Nat
  notify_count : Nat
deriving DecidableEq

/-- `Environment::new(name, in_chan, shutdown_listener)`: empty entity lists,
fresh broadcaster, fresh drop notifier, zero counter.  The supplied `in_chan`
receiver starts empty (it comes from a channel created just before in
`create_environment`). -/
def Environment.new (name : String) : EnvState :=
  { name := name
    joined_entities := []
    affecting_entities := []
    in_chan := []
    out_log := []
    drop_notifier := Trigger.new
    num_received_effects := 0
    notify_count := 0 }

/-- `Environment::send_term_sig`: pull the drop notifier. -/
def EnvState.send_term_sig (s : EnvState) : EnvState :=
  { s with drop_notifier := s.drop_notifier.pull }

/-- The inbound drain loop of `Environment::poll` (environment.rs lines
160-189): receive from `in_chan` until empty; broadcast each effect on
`out_chan`; when the per-poll tally `num` reaches `BROADCAST_BUFFER_SIZE / 2`
notify every joined entity's waker (counted in `rounds`), fold `num` into the
local `num_received` and reset it.  `B` is `BROADCAST_BUFFER_SIZE` (the
`constants` module is not under src/; the spec treats it as a parameter ≥ 2).
Returns (out_chan log, local num_received, num, notify rounds). -/
def envDrain (B : Nat) : List Effect → List Effect → Nat → Nat → Nat →
    List Effect × Nat × Nat × Nat
  | [], out, nrec, num, rounds => (out, nrec, num, rounds)
  | e :: rest, out, nrec, num, rounds =>
      if num + 1 = B / 2 then
        envDrain B rest (out ++ [e]) (nrec + (num + 1)) 0 (rounds + 1)
      else
        envDrain B rest (out ++ [e]) nrec (num + 1) rounds

/-- `Environment::poll` (environment.rs lines 145-213): drain and broadcast
the inbound channel, store the updated `num_received` counter, notify every
joined entity's waker once more, then check the shutdown listener and return
`Ready(())` exactly when it is armed.  Returns the new state, the number of
times each joined entity's waker was notified during this poll, and the poll
result. -/
def Environment.poll (B : Nat) (shutdown : Trigger) (s : EnvState) :
    EnvState × Nat × Async Unit :=
  let r := envDrain B s.in_chan s.out_log s.num_received_effects 0 0
  let s₁ := { s with
    in_chan := []
    out_log := r.1
    num_received_effects := r.2.1 + r.2.2.1 }
  let rounds := r.2.2.2 + 1
  match (shutdown.get_handle).poll shutdown with
  | .Ready (some true) => (s₁, rounds, .Ready ())
  | _ => (s₁, rounds, .NotReady)

/- ----------------------------------------------------------------
Entity (src/src/eee/entity.rs) and the missing `EntityHost`.
---------------------------------------------------------------- -/

/-- `JoinedEnvironment` (entity.rs lines 47-52): the data an entity holds per
joined environment: a `BusReader` over that environment's broadcast log
(represented by the environment's id and this reader's cursor into its
`out_log`) together with the term-signal listener (a handle to that
environment's drop notifier, reachable through the same id). -/
structure JoinedEnvironment where
  envId : Nat
  cursor : Nat
deriving DecidableEq

/-- `BusReader::try_recv`: the next unread entry of the broadcast log, if
any. -/
def busTryRecv (log : List Effect) (cursor : Nat) : Option Effect :=
  log.get? cursor

/-- The recursion of the entity's inner receive loop, bounded by `fuel`: keep
receiving until `try_recv` comes back empty.  The loop in the source has no
explicit bound; `busDrain` below supplies `log.length - cursor` as fuel,
which `busDrainGo_fst` shows never runs out before the empty receive (a
reader never reads past the end of the log). -/
def busDrainGo (log : List Effect) : Nat → Nat → List Effect × Nat
  | 0, cursor => ([], cursor)
  | fuel + 1, cursor =>
      match busTryRecv log cursor with
      | some e =>
          let r := busDrainGo log fuel (cursor + 1)
          (e :: r.1, r.2)
      | none => ([], cursor)

/-- The entity's inner receive loop (entity.rs lines 193-211): `try_recv`
until the channel is empty; the loop always terminates through the empty
branch.  Returns the received effects (in order) and the advanced cursor. -/
def busDrain (log : List Effect) (cursor : Nat) : List Effect × Nat :=
  busDrainGo log (log.length - cursor) cursor

/-- One full pass of the outer drain loop of `Entity::poll` (entity.rs lines
186-212): visit each joined environment in order; drain its reader completely
(`num` grows by everything received); when a reader's `try_recv` comes back
empty — which ends every inner loop — add one to `num_dry`.  Returns the
entries with advanced cursors, the received effects tagged with the id of the
environment they came from (in order of reception), and `num_dry`.  The logs
of all environments are supplied as `logs`. -/
def drainPass (logs : Nat → List Effect) :
    List (String × JoinedEnvironment) →
      List (String × JoinedEnvironment) × List (Nat × Effect) × Nat
  | [] => ([], [], 0)
  | (n, je) :: rest =>
      let r := busDrain (logs je.envId) je.cursor
      let rec' := drainPass logs rest
      ((n, { je with cursor := r.2 }) :: rec'.1,
        r.1.map (fun e => (je.envId, e)) ++ rec'.2.1,
        rec'.2.2 + 1)

/-- The outer drain loop of `Entity::poll` (entity.rs lines 182-219): repeat
passes until `num_dry >= joined.len()`.  Written with fuel because nothing in
the loop syntactically guarantees termination; `drainLoop_breaks_first_pass`
below shows a single unit of fuel already computes the loop's result.
Returns the final entries, all received tagged effects, and the number of
passes executed. -/
def drainLoop (logs : Nat → List Effect) :
    Nat → List (String × JoinedEnvironment) →
      List (String × JoinedEnvironment) × List (Nat × Effect) × Nat
  | 0, joined => (joined, [], 0)
  | fuel + 1, joined =>
      let p := drainPass logs joined
      if p.2.2 ≥ joined.length then (p.1, p.2.1, 1)
      else
        let q := drainLoop logs fuel p.1
        (q.1, p.2.1 ++ q.2.1, q.2.2 + 1)

/-- Mutable state of one entity.  The fields through `num_received_effects`
are those of `Entity` (entity.rs lines 27-58): `joined` maps an environment
name to its `JoinedEnvironment` record, `affected` maps a name to the data of
an `AffectedEnvironment` (the affected environment's waker, represented by
its id, through which the inbound sender is also reachable), `out_chan_log`
is the entity's own broadcaster (created in `new`, never written by the code
under verification).  `core` and `own_term` belong to `EntityHost`, the
extension of `Entity` exported by eee/mod.rs and used by supervisor.rs and
node.rs but not present under src/; they are modelled from the spec
(sections 3 and 4.3: an optional pure transformer injected by `inject_core`,
and the entity's own termination trigger pulled by `send_sig_term`). -/
structure EntityState where
  uuid : String
  joined : List (String × JoinedEnvironment)
  affected : List (String × Nat)
  out_chan_log : List Effect
  num_received_effects : Nat
  notify_count : Nat
  core : Option (Effect → Effect)
  own_term : Trigger

/-- `Entity::new` (entity.rs lines 62-73) plus the `EntityHost` fields: fresh
uuid, empty joined/affected maps, empty broadcaster, zero received count, no
core installed yet. -/
def EntityHost.new (uuid : String) : EntityState :=
  { uuid := uuid
    joined := []
    affected := []
    out_chan_log := []
    num_received_effects := 0
    notify_count := 0
    core := none
    own_term := Trigger.new }

/-- `Entity::join_environment` (entity.rs lines 76-93): reject a name already
present in `joined`, otherwise insert the record.  The Rust method mutates
`self` through a mutex; on the error path the state is unchanged, which the
pair return value makes explicit. -/
def EntityState.join_environment (s : EntityState) (name : String)
    (je : JoinedEnvironment) : EntityState × Option Error :=
  if (alFind name s.joined).isSome then
    (s, some (.App "This entity already joined that environment"))
  else
    ({ s with joined := s.joined ++ [(name, je)] }, none)

/-- `Entity::affect_environment` (entity.rs lines 96-111): reject a name
already present in `affected`, otherwise insert the record (the affected
environment, represented by its id). -/
def EntityState.affect_environment (s : EntityState) (env_name : String)
    (envId : Nat) : EntityState × Option Error :=
  if (alFind env_name s.affected).isSome then
    (s, some (.App "This entity already affects that environment"))
  else
    ({ s with affected := s.affected ++ [(env_name, envId)] }, none)

/-- Modelled from the spec: `EntityHost::inject_core` installs the
transformer (section 4.3). -/
def EntityState.inject_core (s : EntityState) (f : Effect → Effect) :
    EntityState :=
  { s with core := some f }

/-- `Entity::has_joined` (entity.rs lines 146-148). -/
def EntityState.has_joined (s : EntityState) (env_name : String) : Bool :=
  (alFind env_name s.joined).isSome

/-- `Entity::is_affecting` (entity.rs lines 152-154). -/
def EntityState.is_affecting (s : EntityState) (env_name : String) : Bool :=
  (alFind env_name s.affected).isSome

/-- `Entity::num_joined` (entity.rs lines 157-159). -/
def EntityState.num_joined (s : EntityState) : Nat :=
  s.joined.length

/-- `Entity::joined_environments` (entity.rs lines 129-134). -/
def EntityState.joined_environments (s : EntityState) : List String :=
  s.joined.map (fun p => p.1)

/- ----------------------------------------------------------------
The world: every shared object and the Supervisor registry
(src/src/supervisor.rs).
---------------------------------------------------------------- -/

/-- The whole system.  `envs`/`ents` are the heaps of reference-counted
Environment/Entity objects (they outlive their registry entries: a handle
keeps the object alive after `delete_environment` removes the connection);
`sup_environments` is the Supervisor's name → EnvironmentConnection map,
where each connection (sender half, environment handle clone, waker) is
represented by the id of the environment object all three refer to;
`sup_entities` is the uuid → EntityConnection map, represented by the list of
registered uuids; `shutdown` is the supervisor-wide shutdown trigger that
every component's `shutdown_listener` observes.  Entity uuids are drawn from
a counter in place of the source's random UUIDs; only their uniqueness
matters. -/
structure World where
  nextEnvId : Nat
  nextEntId : Nat
  envs : List (Nat × EnvState)
  ents : List (String × EntityState)
  sup_environments : List (String × Nat)
  sup_entities : List String
  shutdown : Trigger

/-- `Supervisor::new` with an empty registry, inside a fresh system. -/
def World.init : World :=
  { nextEnvId := 0
    nextEntId := 0
    envs := []
    ents := []
    sup_environments := []
    sup_entities := []
    shutdown := Trigger.new }

/-- Apply `f` to the environment object with id `i`. -/
def World.updateEnv (w : World) (i : Nat) (f : EnvState → EnvState) : World :=
  { w with envs := alUpdate i f w.envs }

/-- Apply `f` to the entity object with uuid `u`. -/
def World.updateEnt (w : World) (u : String) (f : EntityState → EntityState) :
    World :=
  { w with ents := alUpdate u f w.ents }

/-- `Supervisor::create_environment` (supervisor.rs lines 123-153): reject a
duplicate name; otherwise build a fresh unbounded channel and an Environment
holding its receiver, store the connection (sender, handle clone, waker)
under the name, and return the handle. -/
def World.create_environment (w : World) (name : String) :
    World × Except Error Nat :=
  if (alFind name w.sup_environments).isSome then
    (w, .error (.App "Environment with that name already exists."))
  else
    let id := w.nextEnvId
    ({ w with
        nextEnvId := id + 1
        envs := w.envs ++ [(id, Environment.new name)]
        sup_environments := w.sup_environments ++ [(name, id)] },
      .ok id)

/-- `Supervisor::delete_environment` (supervisor.rs lines 167-179): remove
the connection from the registry and pull the environment's drop notifier
(`send_sig_term`); unknown names are an `App` error. -/
def World.delete_environment (w : World) (env_name : String) :
    World × Option Error :=
  match alFind env_name w.sup_environments with
  | some id =>
      (({ w with sup_environments := alErase env_name w.sup_environments
         } : World).updateEnv id EnvState.send_term_sig, none)
  | none =>
      (w, some (.App
        "There is no environment with that name managed by this supervisor."))

/-- `Supervisor::create_entity` (supervisor.rs lines 191-200): build an
EntityHost, store its connection keyed by uuid, return the handle. -/
def World.create_entity (w : World) : World × String :=
  let uuid := toString w.nextEntId
  ({ w with
      nextEntId := w.nextEntId + 1
      ents := w.ents ++ [(uuid, EntityHost.new uuid)]
      sup_entities := w.sup_entities ++ [uuid] },
    uuid)

/-- `Supervisor::delete_entity` (supervisor.rs lines 213-225): remove the
connection and pull the entity's own termination trigger (the `send_sig_term`
of `EntityHost`, modelled from the spec). -/
def World.delete_entity (w : World) (uuid : String) : World × Option Error :=
  if w.sup_entities.contains uuid then
    (({ w with sup_entities := w.sup_entities.erase uuid } : World).updateEnt
        uuid (fun s => { s with own_term := s.own_term.pull }), none)
  else
    (w, some (.App "There is no entity with that uuid managed by this supervisor."))

/-- `Environment::register_joining_entity` (environment.rs lines 84-100):
acquire a new reader on the broadcaster (`add_rx`, which starts at the
current end of the log), take a listener from the drop notifier, and call the
entity's `join_environment`; on success append the (entity, waker) record to
`joined_entities`.  The lookups cannot fail for handles obtained from the
supervisor; the artifact branch returns the world unchanged. -/
def World.register_joining_entity (w : World) (envId : Nat) (uuid : String) :
    World × Option Error :=
  match alFind envId w.envs, alFind uuid w.ents with
  | some env, some ent =>
      let je : JoinedEnvironment := { envId := envId, cursor := env.out_log.length }
      let r := ent.join_environment env.name je
      match r.2 with
      | some e => (w, some e)
      | none =>
          ((w.updateEnt uuid (fun _ => r.1)).updateEnv envId
              (fun s => { s with joined_entities := s.joined_entities ++ [uuid] }),
            none)
  | _, _ => (w, some (.App "dangling handle"))

/-- `Environment::register_affecting_entity` (environment.rs lines 103-116):
hand the environment's waker to the entity's `affect_environment`; on success
append the entity to `affecting_entities`. -/
def World.register_affecting_entity (w : World) (envId : Nat) (uuid : String) :
    World × Option Error :=
  match alFind envId w.envs, alFind uuid w.ents with
  | some env, some ent =>
      let r := ent.affect_environment env.name envId
      match r.2 with
      | some e => (w, some e)
      | none =>
          ((w.updateEnt uuid (fun _ => r.1)).updateEnv envId
              (fun s => { s with affecting_entities := s.affecting_entities ++ [uuid] }),
            none)
  | _, _ => (w, some (.App "dangling handle"))

/-- The registration loop of `Supervisor::join_environments` (supervisor.rs
lines 253-258): for each name, look the connection up (the `unwrap` cannot
fail after validation) and register; the `?` operator returns the first
error, keeping the registrations already made. -/
def World.joinAll (w : World) (uuid : String) :
    List String → World × Option Error
  | [] => (w, none)
  | n :: rest =>
      match alFind n w.sup_environments with
      | some id =>
          match w.register_joining_entity id uuid with
          | (w₁, none) => w₁.joinAll uuid rest
          | (w₁, some e) => (w₁, some e)
      | none => (w, some (.App "unwrap of a vanished connection"))

/-- `Supervisor::join_environments` (supervisor.rs lines 239-260): first
validate that every listed name is registered (all-or-nothing validation),
then register sequentially. -/
def World.join_environments (w : World) (uuid : String) (names : List String) :
    World × Option Error :=
  if names.all (fun n => (alFind n w.sup_environments).isSome) then
    w.joinAll uuid names
  else
    (w, some (.App
      "At least one of the specified environments is unknown to this supervisor."))

/-- The registration loop of `Supervisor::affect_environments` (supervisor.rs
lines 297-301). -/
def World.affectAll (w : World) (uuid : String) :
    List String → World × Option Error
  | [] => (w, none)
  | n :: rest =>
      match alFind n w.sup_environments with
      | some id =>
          match w.register_affecting_entity id uuid with
          | (w₁, none) => w₁.affectAll uuid rest
          | (w₁, some e) => (w₁, some e)
      | none => (w, some (.App "unwrap of a vanished connection"))

/-- `Supervisor::affect_environments` (supervisor.rs lines 283-304). -/
def World.affect_environments (w : World) (uuid : String)
    (names : List String) : World × Option Error :=
  if names.all (fun n => (alFind n w.sup_environments).isSome) then
    w.affectAll uuid names
  else
    (w, some (.App
      "At least one of the specified environments is unknown to this supervisor."))

/-- `Supervisor::submit_effect` (supervisor.rs lines 327-347): look up the
connection, send the effect on its sender (append to the environment's
inbound queue), then notify the environment's waker. -/
def World.submit_effect (w : World) (effect : Effect) (env_name : String) :
    World × Option Error :=
  match alFind env_name w.sup_environments with
  | some id =>
      (w.updateEnv id (fun s =>
          { s with
            in_chan := s.in_chan ++ [effect]
            notify_count := s.notify_count + 1 }),
        none)
  | none => (w, some (.App "No environment with this name available"))

/-- `Supervisor::num_environments` (supervisor.rs lines 350-353). -/
def World.num_environments (w : World) : Nat :=
  w.sup_environments.length

/- ----------------------------------------------------------------
The two polls at world level, and the operation language.
---------------------------------------------------------------- -/

/-- The broadcast log of each environment object, viewed by bus readers. -/
def World.outLogs (w : World) : Nat → List Effect :=
  fun id => ((alFind id w.envs).map (fun s => s.out_log)).getD []

/-- What a term-signal listener for environment `id` observes: the current
value of that environment's drop notifier. -/
def World.envDropArmed (w : World) (id : Nat) : Bool :=
  ((alFind id w.envs).map (fun s => s.drop_notifier.armed)).getD false

/-- Modelled from the spec (section 4.3 step 3): publish one output effect
onto the inbound channel of every affected environment and notify that
environment's waker.  (`EntityHost`, which owns this logic, is not under
src/.) -/
def World.publishOut (w : World) (affected : List (String × Nat))
    (out : Effect) : World :=
  affected.foldl (fun wa p =>
      wa.updateEnv p.2 (fun s =>
        { s with
          in_chan := s.in_chan ++ [out]
          notify_count := s.notify_count + 1 })) w

/-- The effects an entity's drain loop would deliver in its next poll, tagged
with the id of the joined environment each came from. -/
def World.entPollReceived (w : World) (uuid : String) : List (Nat × Effect) :=
  match alFind uuid w.ents with
  | none => []
  | some ent => (drainLoop w.outLogs 1 ent.joined).2.1

/-- One poll of an entity's task.  The drain loop, the term-signal scan with
removal of dropped environments, and the counter update are `Entity::poll`
(entity.rs lines 171-269); the application of the installed core to each
received effect and the publication of the output to every affected
environment are the `EntityHost` behaviour modelled from the spec (section
4.3 step 3; with no core installed nothing is published).  The poll result
(`Ready` exactly when a shutdown listener is armed) does not change any
state and is omitted. -/
def World.entPoll (w : World) (uuid : String) : World :=
  match alFind uuid w.ents with
  | none => w
  | some ent =>
      let d := drainLoop w.outLogs 1 ent.joined
      let w₁ := d.2.1.foldl (fun wa t =>
          match ent.core with
          | some f => wa.publishOut ent.affected (f t.2)
          | none => wa) w
      let toDrop := (d.1.filter (fun p => w₁.envDropArmed p.2.envId)).map
          (fun p => p.1)
      let joined₂ := d.1.filter (fun p => !(toDrop.contains p.1))
      w₁.updateEnt uuid (fun s =>
        { s with
          joined := joined₂
          num_received_effects := s.num_received_effects + d.2.1.length })

/-- One poll of an environment's task: run `Environment::poll` on the object
and deliver its waker notifications to every joined entity. -/
def World.envPollStep (w : World) (B : Nat) (id : Nat) : World :=
  match alFind id w.envs with
  | none => w
  | some env =>
      let r := Environment.poll B w.shutdown env
      let w₁ := w.updateEnv id (fun _ => r.1)
      env.joined_entities.foldl (fun wa u =>
          wa.updateEnt u (fun s =>
            { s with notify_count := s.notify_count + r.2.1 })) w₁

/-- Every operation the system's public surface and scheduler can perform. -/
inductive Op where
  | createEnv (name : String) : Op
  | deleteEnv (name : String) : Op
  | createEnt : Op
  | deleteEnt (uuid : String) : Op
  | joinEnvs (uuid : String) (names : List String) : Op
  | affectEnvs (uuid : String) (names : List String) : Op
  | injectCore (uuid : String) (f : Effect → Effect) : Op
  | submit (effect : Effect) (name : String) : Op
  | envPoll (B : Nat) (id : Nat) : Op
  | entPoll (uuid : String) : Op
  | pullShutdown : Op

/-- Apply one operation (failed operations leave the returned state). -/
def World.step (w : World) : Op → World
  | .createEnv name => (w.create_environment name).1
  | .deleteEnv name => (w.delete_environment name).1
  | .createEnt => (w.create_entity).1
  | .deleteEnt u => (w.delete_entity u).1
  | .joinEnvs u ns => (w.join_environments u ns).1
  | .affectEnvs u ns => (w.affect_environments u ns).1
  | .injectCore u f => w.updateEnt u (fun s => s.inject_core f)
  | .submit e n => (w.submit_effect e n).1
  | .envPoll B id => w.envPollStep B id
  | .entPoll u => w.entPoll u
  | .pullShutdown => { w with shutdown := w.shutdown.pull }

/-- Run a sequence of operations. -/
def World.steps (w : World) : List Op → World
  | [] => w
  | op :: ops => (w.step op).steps ops

/- Observables used by the claims. -/

/-- The pending inbound queue of environment `id`. -/
def World.envInChan (w : World) (id : Nat) : List Effect :=
  ((alFind id w.envs).map (fun s => s.in_chan)).getD []

/-- The broadcast log of environment `id`. -/
def World.envOutLog (w : World) (id : Nat) : List Effect :=
  ((alFind id w.envs).map (fun s => s.out_log)).getD []

/-- `Environment::num_received_effects` for environment `id`. -/
def World.envNumReceived (w : World) (id : Nat) : Nat :=
  ((alFind id w.envs).map (fun s => s.num_received_effects)).getD 0

/-- How often environment `id`'s waker has been notified. -/
def World.envNotifyCount (w : World) (id : Nat) : Nat :=
  ((alFind id w.envs).map (fun s => s.notify_count)).getD 0

/-- `Entity::num_received_effects` for entity `uuid`. -/
def World.entNumReceived (w : World) (uuid : String) : Nat :=
  ((alFind uuid w.ents).map (fun s => s.num_received_effects)).getD 0

/-- The names in entity `uuid`'s joined map, in insertion order. -/
def World.entJoinedNames (w : World) (uuid : String) : List String :=
  ((alFind uuid w.ents).map (fun s => s.joined.map (fun p => p.1))).getD []

/-- The environment ids entity `uuid`'s joined map refers to. -/
def World.entJoinedIds (w : World) (uuid : String) : List Nat :=
  ((alFind uuid w.ents).map (fun s => s.joined.map (fun p => p.2.envId))).getD []

/-- The full joined map of entity `uuid`. -/
def World.entJoined (w : World) (uuid : String) :
    List (String × JoinedEnvironment) :=
  ((alFind uuid w.ents).map (fun s => s.joined)).getD []

/-- Registry coherence: every connection's id denotes a live environment
object carrying the registered name.  This holds in every reachable world
(`create_environment` stores the object it names) and is preserved by
registration. -/
def World.envNamesOk (w : World) : Prop :=
  ∀ p ∈ w.sup_environments,
    ∃ env, alFind p.2 w.envs = some env ∧ env.name = p.1

/-- The logs of the claim C8 counterexample: every environment's broadcast
log holds one pending effect. -/
def c8Logs : Nat → List Effect := fun _ => [Effect.Ascii "hello"]

/-- The joined map of the claim C8 counterexample: one environment, reader
at the start of the log. -/
def c8Joined : List (String × JoinedEnvironment) :=
  [("X", { envId := 0, cursor := 0 })]

/-- A world with one registered environment "X", for the claim C7 witness. -/
def c7World : World := (World.init.create_environment "X").1

/-- A world with a registered environment "X" (id 0) and an entity (uuid
"0"), used by the claim C5 theorems. -/
def c5World : World := ((World.init.create_environment "X").1.create_entity).1

/-- The `reverse` core of the round-trip scenario: reverse the characters of
an ASCII effect. -/
def reverseCore : Effect → Effect
  | .Ascii s => .Ascii (String.mk s.data.reverse)
  | e => e

/-- The round-trip scenario of claim C1: create environments "X" (id 0) and
"Y" (id 1), create an entity (uuid "0"), join it to X, let it affect Y,
install the `reverse` core, submit "hello" to X, poll X (which broadcasts),
poll the entity (which receives "hello", applies the core and publishes
"olleh" to Y with a waker notify).  `BROADCAST_BUFFER_SIZE` is 4. -/
def roundtripWorld : World :=
  World.init.steps
    [.createEnv "X", .createEnv "Y", .createEnt,
     .joinEnvs "0" ["X"], .affectEnvs "0" ["Y"],
     .injectCore "0" reverseCore,
     .submit (.Ascii "hello") "X",
     .envPoll 4 0, .entPoll "0"]

/- ----------------------------------------------------------------
Counter monotonicity (claim C9).
---------------------------------------------------------------- -/

/-- Between two worlds: every environment object and every entity object of
the first is still present in the second, with a `num_received_effects`
counter at least as large. -/
def countersMono (w w' : World) : Prop :=
  (∀ (i : Nat) (e : EnvState), alFind i w.envs = some e →
    ∃ e', alFind i w'.envs = some e' ∧
      e.num_received_effects ≤ e'.num_received_effects) ∧
  (∀ (u : String) (s : EntityState), alFind u w.ents = some s →
    ∃ s', alFind u w'.ents = some s' ∧
      s.num_received_effects ≤ s'.num_received_effects)

/-- The per-effect fold of the entity poll (core application plus
publication). -/
def pubFold (ent : EntityState) (l : List (Nat × Effect)) (w : World) :
    World :=
  l.foldl (fun wa t =>
    match ent.core with
    | some f => wa.publishOut ent.affected (f t.2)
    | none => wa) w

/-- After `delete_environment("X")` removed the connection with id `k`, the
entity `u` is permanently unlinked from the environment object `k`: no
connection with id `k` exists, `k` can never be reissued (ids grow from
`nextEnvId`), and `u`'s joined map holds no reader for `k`. -/
def UnlinkedFromEnv (k : Nat) (u : String) (w : World) : Prop :=
  (∀ p ∈ w.sup_environments, p.2 ≠ k) ∧ k < w.nextEnvId ∧
    k ∉ w.entJoinedIds u

/-- A world with environment "X" (id 0) joined by entity "0", for the claim
C3 witness. -/
def c3World : World :=
  World.init.steps [.createEnv "X", .createEnt, .joinEnvs "0" ["X"]]

/- ----------------------------------------------------------------
Theorems.
---------------------------------------------------------------- -/

theorem alFind_alUpdate_self {α β : Type} [DecidableEq α] (k : α) (f : β → β)
    (l : List (α × β)) :
    alFind k (alUpdate k f l) = (alFind k l).map f := by
  induction l with
  | nil => rfl
  | cons p rest ih =>
    obtain ⟨k₁, v⟩ := p
    by_cases h : k₁ = k
    · simp [alUpdate, alFind, h]
    · simp [alUpdate, alFind, h, ih]

theorem alFind_alUpdate_ne {α β : Type} [DecidableEq α] {k j : α} (f : β → β)
    (l : List (α × β)) (h : j ≠ k) :
    alFind j (alUpdate k f l) = alFind j l := by
  induction l with
  | nil => rfl
  | cons p rest ih =>
    obtain ⟨k₁, v⟩ := p
    by_cases hk : k₁ = k
    · have hkj : ¬ k = j := fun hh => h hh.symm
      subst hk
      simp [alUpdate, alFind, hkj]
    · by_cases hj : k₁ = j
      · subst hj
        simp [alUpdate, alFind, h]
      · simp [alUpdate, alFind, hk, hj, ih]

theorem alFind_append_of_none {α β : Type} [DecidableEq α] {k : α}
    {l : List (α × β)} (l' : List (α × β)) (h : alFind k l = none) :
    alFind k (l ++ l') = alFind k l' := by
  induction l with
  | nil => rfl
  | cons p rest ih =>
    obtain ⟨k₁, v⟩ := p
    by_cases hk : k₁ = k
    · simp [alFind, hk] at h
    · simp only [alFind, hk, if_false, List.cons_append, if_neg hk] at h ⊢
      exact ih h

theorem alFind_append_of_some {α β : Type} [DecidableEq α] {k : α}
    {l : List (α × β)} {v : β} (l' : List (α × β)) (h : alFind k l = some v) :
    alFind k (l ++ l') = some v := by
  induction l with
  | nil => simp [alFind] at h
  | cons p rest ih =>
    obtain ⟨k₁, v₁⟩ := p
    by_cases hk : k₁ = k
    · simpa [alFind, hk] using h
    · simp [alFind, hk] at h ⊢
      exact ih h

theorem envDrain_spec (B : Nat) (l : List Effect) :
    ∀ (out : List Effect) (nrec num rounds : Nat),
      (envDrain B l out nrec num rounds).1 = out ++ l ∧
      (envDrain B l out nrec num rounds).2.1 +
        (envDrain B l out nrec num rounds).2.2.1 = nrec + num + l.length := by
  induction l with
  | nil => intro out nrec num rounds; simp [envDrain]
  | cons e rest ih =>
    intro out nrec num rounds
    simp only [envDrain]
    by_cases h : num + 1 = B / 2
    · rw [if_pos h]
      have h1 := ih (out ++ [e]) (nrec + (num + 1)) 0 (rounds + 1)
      constructor
      · rw [h1.1]; simp
      · have h2 := h1.2
        simp only [List.length_cons]
        omega
    · rw [if_neg h]
      have h1 := ih (out ++ [e]) nrec (num + 1) rounds
      constructor
      · rw [h1.1]; simp
      · have h2 := h1.2
        simp only [List.length_cons]
        omega

/-- Every environment poll empties the inbound queue, appends exactly the
drained effects (in order) to the broadcast log, and adds their number to the
`num_received` counter. -/
theorem Environment.poll_drains (B : Nat) (shutdown : Trigger) (s : EnvState) :
    ((Environment.poll B shutdown s).1.out_log = s.out_log ++ s.in_chan) ∧
    ((Environment.poll B shutdown s).1.in_chan = []) ∧
    ((Environment.poll B shutdown s).1.num_received_effects =
      s.num_received_effects + s.in_chan.length) := by
  have h := envDrain_spec B s.in_chan s.out_log s.num_received_effects 0 0
  unfold Environment.poll
  cases hp : (shutdown.get_handle).poll shutdown with
  | NotReady => simp_all
  | Ready v =>
    match v with
    | none => simp_all
    | some b =>
      cases b <;> simp_all

theorem busDrainGo_fst (log : List Effect) :
    ∀ (fuel cursor : Nat), log.length ≤ cursor + fuel →
      (busDrainGo log fuel cursor).1 = log.drop cursor := by
  intro fuel
  induction fuel with
  | zero =>
    intro cursor h
    rw [List.drop_eq_nil_of_le (by omega)]
    rfl
  | succ n ih =>
    intro cursor h
    rw [busDrainGo]
    cases hr : busTryRecv log cursor with
    | some e =>
      have hc : cursor < log.length := (List.get?_eq_some.mp hr).1
      have hrec := ih (cursor + 1) (by omega)
      simp only [hrec]
      rw [List.drop_eq_getElem_cons hc]
      have hge : log[cursor] = e := by
        have := List.get?_eq_some.mp hr
        simpa [List.get_eq_getElem] using this.2
      rw [hge]
    | none =>
      have hc : log.length ≤ cursor := by
        simpa [busTryRecv, List.get?_eq_none] using hr
      rw [List.drop_eq_nil_of_le (by omega)]

/-- The inner loop receives exactly the unread suffix of the broadcast log,
in order. -/
theorem busDrain_fst (log : List Effect) (cursor : Nat) :
    (busDrain log cursor).1 = log.drop cursor :=
  busDrainGo_fst log (log.length - cursor) cursor (by omega)

/-- In every pass, each joined environment's inner loop ends with an empty
receive, so `num_dry` equals the number of joined environments. -/
theorem drainPass_num_dry (logs : Nat → List Effect)
    (joined : List (String × JoinedEnvironment)) :
    (drainPass logs joined).2.2 = joined.length := by
  induction joined with
  | nil => rfl
  | cons p rest ih => simp [drainPass, ih]

/-- A pass only advances cursors: names and environment ids are unchanged. -/
theorem drainPass_keys (logs : Nat → List Effect)
    (joined : List (String × JoinedEnvironment)) :
    (drainPass logs joined).1.map (fun p => (p.1, p.2.envId)) =
      joined.map (fun p => (p.1, p.2.envId)) := by
  induction joined with
  | nil => rfl
  | cons p rest ih => simp [drainPass, ih]

/-- Every effect received in a pass is tagged with the id of one of the
joined environments. -/
theorem drainPass_tags (logs : Nat → List Effect)
    (joined : List (String × JoinedEnvironment)) :
    ∀ t ∈ (drainPass logs joined).2.1,
      t.1 ∈ joined.map (fun p => p.2.envId) := by
  induction joined with
  | nil => intro t ht; simp [drainPass] at ht
  | cons p rest ih =>
    intro t ht
    simp only [drainPass, List.mem_append, List.mem_map] at ht
    rcases ht with ht | ht
    · obtain ⟨e, _, he⟩ := ht
      simp [← he]
    · have := ih t ht
      simp at this ⊢
      tauto

/-- The break condition `num_dry >= joined.len()` holds at the end of every
pass, so the outer drain loop always stops after its first pass; any positive
amount of fuel computes the same result. -/
theorem drainLoop_breaks_first_pass (logs : Nat → List Effect)
    (fuel : Nat) (joined : List (String × JoinedEnvironment)) :
    drainLoop logs (fuel + 1) joined =
      ((drainPass logs joined).1, (drainPass logs joined).2.1, 1) := by
  simp [drainLoop, drainPass_num_dry]

/- ----------------------------------------------------------------
Helper lemmas about registration.
---------------------------------------------------------------- -/

theorem alFind_mem {α β : Type} [DecidableEq α] {k : α} {l : List (α × β)}
    {v : β} (h : alFind k l = some v) : (k, v) ∈ l := by
  induction l with
  | nil => cases h
  | cons p rest ih =>
    obtain ⟨k₁, v₁⟩ := p
    by_cases hk : k₁ = k
    · subst hk
      simp only [alFind, if_pos rfl] at h
      injection h with hh
      subst hh
      exact List.mem_cons_self _ _
    · simp only [alFind, if_neg hk] at h
      exact List.mem_cons_of_mem _ (ih h)

theorem alFind_alUpdate_map {α β γ : Type} [DecidableEq α] (k : α)
    (f : β → β) (g : β → γ) (hpres : ∀ b, g (f b) = g b) (l : List (α × β))
    (j : α) :
    (alFind j (alUpdate k f l)).map g = (alFind j l).map g := by
  by_cases hj : j = k
  · subst hj
    rw [alFind_alUpdate_self]
    cases alFind j l <;> simp [hpres]
  · rw [alFind_alUpdate_ne _ _ hj]

/-- Successful `register_joining_entity` picked the environment and entity
out of the heaps, the entity had not joined that name, and the result is
exactly the two updates: the entry appended to the entity's joined map and
the entity appended to the environment's joined list. -/
theorem register_join_ok {w w₁ : World} {id : Nat} {uuid : String}
    (h : w.register_joining_entity id uuid = (w₁, none)) :
    ∃ env ent, alFind id w.envs = some env ∧ alFind uuid w.ents = some ent ∧
      (alFind env.name ent.joined).isSome = false ∧
      w₁ = (w.updateEnt uuid (fun _ =>
          { ent with joined := ent.joined ++
              [(env.name, { envId := id, cursor := env.out_log.length })] })).updateEnv
          id (fun s => { s with joined_entities := s.joined_entities ++ [uuid] }) := by
  cases he : alFind id w.envs with
  | none =>
    cases hf : alFind uuid w.ents <;>
      simp [World.register_joining_entity, he, hf] at h
  | some env =>
    cases hf : alFind uuid w.ents with
    | none => simp [World.register_joining_entity, he, hf] at h
    | some ent =>
      simp only [World.register_joining_entity, he, hf] at h
      cases hdup : (alFind env.name ent.joined).isSome with
      | true => simp [EntityState.join_environment, hdup] at h
      | false =>
        simp only [EntityState.join_environment, hdup, Bool.false_eq_true,
          if_false, if_neg, Prod.mk.injEq] at h
        refine ⟨env, ent, rfl, rfl, hdup, ?_⟩
        exact h.1.symm

theorem joinAll_ok (uuid : String) :
    ∀ (names : List String) (w : World), w.envNamesOk →
      (w.joinAll uuid names).2 = none →
      (w.joinAll uuid names).1.entJoinedNames uuid =
        w.entJoinedNames uuid ++ names := by
  intro names
  induction names with
  | nil => intro w _ _; simp [World.joinAll]
  | cons n rest ih =>
    intro w hok hnone
    cases hn : alFind n w.sup_environments with
    | none => simp [World.joinAll, hn] at hnone
    | some id =>
      simp only [World.joinAll, hn] at hnone ⊢
      cases hr : w.register_joining_entity id uuid with
      | mk w₁ err =>
        cases err with
        | some e => simp [hr] at hnone
        | none =>
          simp only [hr] at hnone ⊢
          obtain ⟨env, ent, henv, hent, -, hw₁⟩ := register_join_ok hr
          -- the registered name is the environment object's name
          obtain ⟨env₀, henv₀, hname₀⟩ := hok (n, id) (alFind_mem hn)
          have henvn : env.name = n := by
            rw [henv] at henv₀
            cases henv₀
            exact hname₀
          -- names of the entity's joined map after this registration
          have hjoined : w₁.entJoinedNames uuid =
              w.entJoinedNames uuid ++ [n] := by
            subst hw₁
            simp [World.entJoinedNames, World.updateEnv, World.updateEnt,
              alFind_alUpdate_self, hent, henvn]
          -- coherence is preserved: registry unchanged, names unchanged
          have hok₁ : w₁.envNamesOk := by
            intro p hp
            subst hw₁
            obtain ⟨env₁, henv₁, hname₁⟩ := hok p hp
            have := alFind_alUpdate_map id
              (fun s => { s with joined_entities := s.joined_entities ++ [uuid] })
              EnvState.name (fun b => rfl) w.envs p.2
            rw [henv₁] at this
            cases hkey : alFind p.2 (alUpdate id
                (fun s => { s with joined_entities := s.joined_entities ++ [uuid] })
                w.envs) with
            | none => rw [hkey] at this; simp at this
            | some env₂ =>
              rw [hkey] at this
              simp only [Option.map_some'] at this
              injection this with hh
              exact ⟨env₂, hkey, by rw [hh]; exact hname₁⟩
          have := ih w₁ hok₁ hnone
          rw [this, hjoined, List.append_assoc]
          rfl

/-- Every result in a trace of listener polls is `Ready` with the trigger's
current value. -/
theorem pollTrace_mem (t : Trigger) (h : TriggerHandle) :
    ∀ (m : Nat) (r : Async (Option Bool)),
      r ∈ h.pollTrace t m → r = .Ready (some t.armed) := by
  intro m
  induction m with
  | zero => intro r hr; cases hr
  | succ n ih =>
    intro r hr
    rcases List.mem_cons.mp hr with h1 | h1
    · exact h1
    · exact ih r h1

/-- Claim C4: once `pull()` has been called on a Trigger, any poll of any
listener handle yields `Ready(true)` (the watch channel's
`Ready(Some(true))`), every one of any number of subsequent polls of that
listener yields the same (level-triggered steady state), and a listener
created after the pull sees `true` already on its first poll. -/
theorem claim_C4 (t : Trigger) (h : TriggerHandle) (n : Nat) :
    (h.poll t.pull = .Ready (some true)) ∧
    (∀ r ∈ h.pollTrace t.pull (n + 1), r = .Ready (some true)) ∧
    ((t.pull.get_handle).poll t.pull = .Ready (some true)) :=
  ⟨rfl, fun r hr => pollTrace_mem t.pull h (n + 1) r hr, rfl⟩

/-- Claim C2: in every Environment poll, the effects read from the inbound
channel are exactly the queued ones, each is broadcast exactly once on the
outbound broadcaster, in reception order (the broadcast log is extended by
precisely the drained queue), and `num_received` grows by exactly the number
of effects drained in that poll. -/
theorem claim_C2 (B : Nat) (shutdown : Trigger) (s : EnvState) :
    ((Environment.poll B shutdown s).1.out_log = s.out_log ++ s.in_chan) ∧
    ((Environment.poll B shutdown s).1.in_chan = []) ∧
    ((Environment.poll B shutdown s).1.num_received_effects =
      s.num_received_effects + s.in_chan.length) :=
  Environment.poll_drains B shutdown s

/-- Claim C10: the Environment poll drains and broadcasts the whole inbound
queue before checking the shutdown listener, so the final poll — the one
that returns `Ready` because the shutdown trigger is armed — still
broadcasts every effect queued at its start. -/
theorem claim_C10 (B : Nat) (s : EnvState) :
    ((Environment.poll B ⟨true⟩ s).2.2 = .Ready ()) ∧
    ((Environment.poll B ⟨true⟩ s).1.out_log = s.out_log ++ s.in_chan) ∧
    ((Environment.poll B ⟨true⟩ s).1.num_received_effects =
      s.num_received_effects + s.in_chan.length) := by
  have h := Environment.poll_drains B ⟨true⟩ s
  exact ⟨rfl, h.1, h.2.2⟩

/-- Claim C8 counterexample: in a pass over this joined map an effect IS
received, yet `num_dry` still reaches `joined.len()` (the inner loop ends
with an empty receive even after receiving data), so the outer drain loop
breaks after this first pass — `drainLoop` with ample fuel performs exactly
one pass — where the claim requires another pass whenever some effect was
received. -/
theorem claim_C8_counterexample :
    ((drainPass c8Logs c8Joined).2.1 = [(0, Effect.Ascii "hello")]) ∧
    ¬((drainPass c8Logs c8Joined).2.1 = []) ∧
    ((drainPass c8Logs c8Joined).2.2 ≥ c8Joined.length) ∧
    ((drainLoop c8Logs 9 c8Joined).2.2 = 1) := by
  decide

/-- Claim C8 (amended): the outer drain loop breaks at the end of a pass
exactly when `num_dry >= joined.len()`, where `num_dry` counts channels
whose final `try_recv` of the pass returned empty; since every channel's
inner loop ends with an empty receive, every pass ends with
`num_dry = joined.len()`, and the loop therefore always breaks after its
first full pass — even when effects were received in it — and never makes a
second pass. -/
theorem claim_C8 (logs : Nat → List Effect)
    (joined : List (String × JoinedEnvironment)) (fuel : Nat) :
    ((drainPass logs joined).2.2 = joined.length) ∧
    (drainLoop logs (fuel + 1) joined =
      ((drainPass logs joined).1, (drainPass logs joined).2.1, 1)) :=
  ⟨drainPass_num_dry logs joined, drainLoop_breaks_first_pass logs fuel joined⟩

/-- Claim C6: a second `join_environment` with a name already present in the
joined map returns the duplicate-join `App` error and records nothing beyond
the successful first registration, and a second `affect_environment` with a
name already present in the affected map returns the duplicate-affect `App`
error, the first registration again being the only one recorded. -/
theorem claim_C6 (s : EntityState) (jname aname : String)
    (je₁ je₂ : JoinedEnvironment) (i₁ i₂ : Nat)
    (hj : alFind jname s.joined = none)
    (ha : alFind aname s.affected = none) :
    (s.join_environment jname je₁ =
      ({ s with joined := s.joined ++ [(jname, je₁)] }, none)) ∧
    ((s.join_environment jname je₁).1.join_environment jname je₂ =
      ((s.join_environment jname je₁).1,
        some (.App "This entity already joined that environment"))) ∧
    (alFind jname (s.join_environment jname je₁).1.joined = some je₁) ∧
    (s.affect_environment aname i₁ =
      ({ s with affected := s.affected ++ [(aname, i₁)] }, none)) ∧
    ((s.affect_environment aname i₁).1.affect_environment aname i₂ =
      ((s.affect_environment aname i₁).1,
        some (.App "This entity already affects that environment"))) ∧
    (alFind aname (s.affect_environment aname i₁).1.affected = some i₁) := by
  have hfj : alFind jname (s.joined ++ [(jname, je₁)]) = some je₁ := by
    rw [alFind_append_of_none _ hj]
    simp [alFind]
  have hfa : alFind aname (s.affected ++ [(aname, i₁)]) = some i₁ := by
    rw [alFind_append_of_none _ ha]
    simp [alFind]
  refine ⟨?_, ?_, ?_, ?_, ?_, ?_⟩ <;>
    simp [EntityState.join_environment, EntityState.affect_environment,
      hj, ha, hfj, hfa]

/-- Witness for claim C6 at a fresh entity joining and affecting concrete
environments. -/
theorem claim_C6_witness :
    (((EntityHost.new "0").join_environment "X"
        { envId := 0, cursor := 0 }).1.join_environment "X"
        { envId := 0, cursor := 5 } =
      (((EntityHost.new "0").join_environment "X"
          { envId := 0, cursor := 0 }).1,
        some (.App "This entity already joined that environment"))) ∧
    (((EntityHost.new "0").affect_environment "Y" 1).1.affect_environment
        "Y" 2 =
      (((EntityHost.new "0").affect_environment "Y" 1).1,
        some (.App "This entity already affects that environment"))) :=
  ⟨(claim_C6 (EntityHost.new "0") "X" "Y" { envId := 0, cursor := 0 }
      { envId := 0, cursor := 5 } 1 2 rfl rfl).2.1,
   (claim_C6 (EntityHost.new "0") "X" "Y" { envId := 0, cursor := 0 }
      { envId := 0, cursor := 5 } 1 2 rfl rfl).2.2.2.2.1⟩

/-- Claim C7: `create_environment` with a name already in the registry
returns the duplicate-name `App` error and changes nothing; with a fresh
name it constructs the new channel and Environment named `name`, appends the
connection under `name` to the registry, and returns the handle (the id of
the stored environment object). -/
theorem claim_C7 (w : World) (name : String) :
    ((alFind name w.sup_environments).isSome = true →
      w.create_environment name =
        (w, .error (.App "Environment with that name already exists."))) ∧
    (alFind name w.sup_environments = none →
      w.create_environment name =
        ({ w with
            nextEnvId := w.nextEnvId + 1
            envs := w.envs ++ [(w.nextEnvId, Environment.new name)]
            sup_environments := w.sup_environments ++ [(name, w.nextEnvId)] },
          .ok w.nextEnvId)) := by
  constructor
  · intro h
    simp [World.create_environment, h]
  · intro h
    simp [World.create_environment, h]

/-- Witness for claim C7: duplicate "X" is rejected without change, fresh
"Y" is stored under the next id and its handle returned. -/
theorem claim_C7_witness :
    (c7World.create_environment "X" =
      (c7World, .error (.App "Environment with that name already exists."))) ∧
    (c7World.create_environment "Y" =
      ({ c7World with
          nextEnvId := c7World.nextEnvId + 1
          envs := c7World.envs ++ [(c7World.nextEnvId, Environment.new "Y")]
          sup_environments :=
            c7World.sup_environments ++ [("Y", c7World.nextEnvId)] },
        .ok c7World.nextEnvId)) :=
  ⟨(claim_C7 c7World "X").1 (by decide),
   (claim_C7 c7World "Y").2 (by decide)⟩

/-- Claim C5 counterexample: for the list `["X", "X"]` every listed name is
registered, yet `join_environments` returns an `App` error (the second
registration is a duplicate join), and only the first registration is
recorded — the entity is not joined to "each listed environment" in the
claim's sense, and the earlier registration is not rolled back. -/
theorem claim_C5_counterexample :
    (["X", "X"].all
        (fun n => (alFind n c5World.sup_environments).isSome) = true) ∧
    ((c5World.join_environments "0" ["X", "X"]).2 =
      some (.App "This entity already joined that environment")) ∧
    ((c5World.join_environments "0" ["X", "X"]).1.entJoinedNames "0" = ["X"]) := by
  decide

/-- Claim C5 (amended): if at least one listed name is not registered,
`join_environments` returns the unknown-environment `App` error and performs
no registration (validation is all-or-nothing and precedes all
registration); if every listed name is registered, registration proceeds
sequentially in list order, and when no mid-sequence registration fails the
entity ends up joined to each listed environment in list order; a
mid-sequence duplicate-join failure returns `App` and leaves the earlier
registrations of the sequence in place (no rollback), as the counterexample
shows. -/
theorem claim_C5 (w : World) (uuid : String) (names : List String) :
    (names.all (fun n => (alFind n w.sup_environments).isSome) = false →
      w.join_environments uuid names =
        (w, some (.App
          "At least one of the specified environments is unknown to this supervisor."))) ∧
    (w.envNamesOk →
      (w.join_environments uuid names).2 = none →
      (w.join_environments uuid names).1.entJoinedNames uuid =
        w.entJoinedNames uuid ++ names) := by
  constructor
  · intro h
    simp [World.join_environments, h]
  · intro hok hnone
    cases hv : names.all (fun n => (alFind n w.sup_environments).isSome) with
    | false =>
      rw [World.join_environments, hv] at hnone
      simp at hnone
    | true =>
      rw [World.join_environments, hv] at hnone ⊢
      simp only [if_true]
      exact joinAll_ok uuid names w hok (by simpa using hnone)

/-- Witness for claim C5: an unregistered name is rejected without change,
and a registered one is joined. -/
theorem claim_C5_witness :
    (c5World.join_environments "0" ["Z"] =
      (c5World, some (.App
        "At least one of the specified environments is unknown to this supervisor."))) ∧
    ((c5World.join_environments "0" ["X"]).1.entJoinedNames "0" =
      c5World.entJoinedNames "0" ++ ["X"]) :=
  ⟨(claim_C5 c5World "0" ["Z"]).1 (by decide),
   (claim_C5 c5World "0" ["X"]).2
     (by
       intro p hp
       have hs : c5World.sup_environments = [("X", 0)] := by decide
       rw [hs] at hp
       have hp' : p = ("X", 0) := by simpa using hp
       subst hp'
       exact ⟨Environment.new "X", by decide, rfl⟩)
     (by decide)⟩

/-- Claim C1: in the round-trip scenario, X records one received effect, the
entity records one received effect, exactly one effect — "olleh", the core's
output — sits on Y's inbound channel accompanied by exactly one notify of
Y's waker, and after Y's own poll Y records exactly one received effect,
"olleh". -/
theorem claim_C1 :
    (roundtripWorld.envNumReceived 0 = 1) ∧
    (roundtripWorld.entNumReceived "0" = 1) ∧
    (roundtripWorld.envInChan 1 = [Effect.Ascii "olleh"]) ∧
    (roundtripWorld.envNotifyCount 1 = 1) ∧
    ((roundtripWorld.envPollStep 4 1).envNumReceived 1 = 1) ∧
    ((roundtripWorld.envPollStep 4 1).envOutLog 1 = [Effect.Ascii "olleh"]) := by
  decide

theorem countersMono_refl (w : World) : countersMono w w :=
  ⟨fun _ e he => ⟨e, he, le_refl _⟩, fun _ s hs => ⟨s, hs, le_refl _⟩⟩

theorem countersMono_trans {w₁ w₂ w₃ : World} (h₁ : countersMono w₁ w₂)
    (h₂ : countersMono w₂ w₃) : countersMono w₁ w₃ := by
  constructor
  · intro i e he
    obtain ⟨e₁, he₁, hle₁⟩ := h₁.1 i e he
    obtain ⟨e₂, he₂, hle₂⟩ := h₂.1 i e₁ he₁
    exact ⟨e₂, he₂, le_trans hle₁ hle₂⟩
  · intro u s hs
    obtain ⟨s₁, hs₁, hle₁⟩ := h₁.2 u s hs
    obtain ⟨s₂, hs₂, hle₂⟩ := h₂.2 u s₁ hs₁
    exact ⟨s₂, hs₂, le_trans hle₁ hle₂⟩

/-- Worlds with identical heaps are monotone. -/
theorem countersMono_eq {w w' : World} (he : w'.envs = w.envs)
    (hs : w'.ents = w.ents) : countersMono w w' := by
  constructor
  · intro i e hfind
    exact ⟨e, by rw [he]; exact hfind, le_refl _⟩
  · intro u s hfind
    exact ⟨s, by rw [hs]; exact hfind, le_refl _⟩

/-- Appending fresh objects to the heaps is monotone. -/
theorem countersMono_extend {w w' : World} (le : List (Nat × EnvState))
    (ls : List (String × EntityState)) (he : w'.envs = w.envs ++ le)
    (hs : w'.ents = w.ents ++ ls) : countersMono w w' := by
  constructor
  · intro i e hfind
    exact ⟨e, by rw [he]; exact alFind_append_of_some le hfind, le_refl _⟩
  · intro u s hfind
    exact ⟨s, by rw [hs]; exact alFind_append_of_some ls hfind, le_refl _⟩

/-- Updating one environment with a counter-nondecreasing function is
monotone. -/
theorem countersMono_updEnvAll {w w' : World} {i : Nat}
    {f : EnvState → EnvState} (he : w'.envs = alUpdate i f w.envs)
    (hs : w'.ents = w.ents)
    (hf : ∀ e, e.num_received_effects ≤ (f e).num_received_effects) :
    countersMono w w' := by
  constructor
  · intro j e hfind
    by_cases hj : j = i
    · subst hj
      refine ⟨f e, ?_, hf e⟩
      rw [he, alFind_alUpdate_self, hfind]
      rfl
    · exact ⟨e, by rw [he, alFind_alUpdate_ne _ _ hj]; exact hfind, le_refl _⟩
  · intro u s hfind
    exact ⟨s, by rw [hs]; exact hfind, le_refl _⟩

/-- Updating the environment stored under `i` — known to be `env` — with a
function that does not decrease its counter is monotone. -/
theorem countersMono_updEnvAt {w w' : World} {i : Nat} {env : EnvState}
    {f : EnvState → EnvState} (hfind : alFind i w.envs = some env)
    (he : w'.envs = alUpdate i f w.envs) (hs : w'.ents = w.ents)
    (hf : env.num_received_effects ≤ (f env).num_received_effects) :
    countersMono w w' := by
  constructor
  · intro j e hj
    by_cases hji : j = i
    · subst hji
      rw [hj] at hfind
      injection hfind with hfind
      subst hfind
      refine ⟨f e, ?_, hf⟩
      rw [he, alFind_alUpdate_self, hj]
      rfl
    · exact ⟨e, by rw [he, alFind_alUpdate_ne _ _ hji]; exact hj, le_refl _⟩
  · intro u s hfind'
    exact ⟨s, by rw [hs]; exact hfind', le_refl _⟩

/-- Updating one entity with a counter-nondecreasing function is monotone. -/
theorem countersMono_updEntAll {w w' : World} {u : String}
    {f : EntityState → EntityState} (he : w'.envs = w.envs)
    (hs : w'.ents = alUpdate u f w.ents)
    (hf : ∀ s, s.num_received_effects ≤ (f s).num_received_effects) :
    countersMono w w' := by
  constructor
  · intro j e hfind
    exact ⟨e, by rw [he]; exact hfind, le_refl _⟩
  · intro v s hfind
    by_cases hv : v = u
    · subst hv
      refine ⟨f s, ?_, hf s⟩
      rw [hs, alFind_alUpdate_self, hfind]
      rfl
    · exact ⟨s, by rw [hs, alFind_alUpdate_ne _ _ hv]; exact hfind, le_refl _⟩

/-- Updating the entity stored under `u` — known to be `ent` — with a
function that does not decrease its counter is monotone. -/
theorem countersMono_updEntAt {w w' : World} {u : String} {ent : EntityState}
    {f : EntityState → EntityState} (hfind : alFind u w.ents = some ent)
    (he : w'.envs = w.envs) (hs : w'.ents = alUpdate u f w.ents)
    (hf : ent.num_received_effects ≤ (f ent).num_received_effects) :
    countersMono w w' := by
  constructor
  · intro j e hj
    exact ⟨e, by rw [he]; exact hj, le_refl _⟩
  · intro v s hv
    by_cases hvu : v = u
    · subst hvu
      rw [hv] at hfind
      injection hfind with hfind
      subst hfind
      refine ⟨f s, ?_, hf⟩
      rw [hs, alFind_alUpdate_self, hv]
      rfl
    · exact ⟨s, by rw [hs, alFind_alUpdate_ne _ _ hvu]; exact hv, le_refl _⟩

/-- Folding a pointwise-monotone step over a list is monotone. -/
theorem countersMono_foldl {α : Type} (g : World → α → World)
    (hg : ∀ w a, countersMono w (g w a)) :
    ∀ (l : List α) (w : World), countersMono w (l.foldl g w) := by
  intro l
  induction l with
  | nil => intro w; exact countersMono_refl w
  | cons a rest ih =>
    intro w
    exact countersMono_trans (hg w a) (ih (g w a))

theorem countersMono_publishOut (w : World) (affected : List (String × Nat))
    (out : Effect) : countersMono w (w.publishOut affected out) := by
  unfold World.publishOut
  exact countersMono_foldl
    (fun wa p => wa.updateEnv p.2 (fun s =>
      { s with
        in_chan := s.in_chan ++ [out]
        notify_count := s.notify_count + 1 }))
    (fun wa p => countersMono_updEnvAll rfl rfl (fun _ => le_refl _))
    affected w

/-- An erroring `register_joining_entity` changes nothing. -/
theorem register_join_err {w w₁ : World} {id : Nat} {uuid : String}
    {e : Error} (h : w.register_joining_entity id uuid = (w₁, some e)) :
    w₁ = w := by
  cases he : alFind id w.envs with
  | none =>
    cases hf : alFind uuid w.ents <;>
      simp_all [World.register_joining_entity, he, hf]
  | some env =>
    cases hf : alFind uuid w.ents with
    | none => simp_all [World.register_joining_entity, he, hf]
    | some ent =>
      simp only [World.register_joining_entity, he, hf] at h
      cases hdup : (alFind env.name ent.joined).isSome with
      | true =>
        simp only [EntityState.join_environment, hdup, if_true, if_pos] at h
        exact (Prod.mk.injEq _ _ _ _ |>.mp h).1.symm
      | false =>
        simp [EntityState.join_environment, hdup] at h

/-- An erroring `register_affecting_entity` changes nothing. -/
theorem register_affect_err {w w₁ : World} {id : Nat} {uuid : String}
    {e : Error} (h : w.register_affecting_entity id uuid = (w₁, some e)) :
    w₁ = w := by
  cases he : alFind id w.envs with
  | none =>
    cases hf : alFind uuid w.ents <;>
      simp_all [World.register_affecting_entity, he, hf]
  | some env =>
    cases hf : alFind uuid w.ents with
    | none => simp_all [World.register_affecting_entity, he, hf]
    | some ent =>
      simp only [World.register_affecting_entity, he, hf] at h
      cases hdup : (alFind env.name ent.affected).isSome with
      | true =>
        simp only [EntityState.affect_environment, hdup, if_true, if_pos] at h
        exact (Prod.mk.injEq _ _ _ _ |>.mp h).1.symm
      | false =>
        simp [EntityState.affect_environment, hdup] at h

/-- A successful `register_affecting_entity` is exactly the two updates. -/
theorem register_affect_ok {w w₁ : World} {id : Nat} {uuid : String}
    (h : w.register_affecting_entity id uuid = (w₁, none)) :
    ∃ env ent, alFind id w.envs = some env ∧ alFind uuid w.ents = some ent ∧
      w₁ = (w.updateEnt uuid (fun _ =>
          { ent with affected := ent.affected ++ [(env.name, id)] })).updateEnv
          id (fun s =>
            { s with affecting_entities := s.affecting_entities ++ [uuid] }) := by
  cases he : alFind id w.envs with
  | none =>
    cases hf : alFind uuid w.ents <;>
      simp_all [World.register_affecting_entity, he, hf]
  | some env =>
    cases hf : alFind uuid w.ents with
    | none => simp_all [World.register_affecting_entity, he, hf]
    | some ent =>
      simp only [World.register_affecting_entity, he, hf] at h
      cases hdup : (alFind env.name ent.affected).isSome with
      | true => simp [EntityState.affect_environment, hdup] at h
      | false =>
        simp only [EntityState.affect_environment, hdup, Bool.false_eq_true,
          if_false, if_neg, Prod.mk.injEq] at h
        exact ⟨env, ent, rfl, rfl, h.1.symm⟩

theorem register_join_mono (w : World) (id : Nat) (uuid : String) :
    countersMono w (w.register_joining_entity id uuid).1 := by
  cases hr : w.register_joining_entity id uuid with
  | mk w₁ err =>
    cases err with
    | some e => rw [register_join_err hr]; exact countersMono_refl w
    | none =>
      obtain ⟨env, ent, henv, hent, -, hw₁⟩ := register_join_ok hr
      subst hw₁
      have h1 : countersMono w (w.updateEnt uuid (fun _ =>
          { ent with joined := ent.joined ++
              [(env.name, { envId := id, cursor := env.out_log.length })] })) :=
        countersMono_updEntAt hent rfl rfl (le_refl _)
      exact countersMono_trans h1
        (countersMono_updEnvAll rfl rfl (fun _ => le_refl _))

theorem register_affect_mono (w : World) (id : Nat) (uuid : String) :
    countersMono w (w.register_affecting_entity id uuid).1 := by
  cases hr : w.register_affecting_entity id uuid with
  | mk w₁ err =>
    cases err with
    | some e => rw [register_affect_err hr]; exact countersMono_refl w
    | none =>
      obtain ⟨env, ent, henv, hent, hw₁⟩ := register_affect_ok hr
      subst hw₁
      have h1 : countersMono w (w.updateEnt uuid (fun _ =>
          { ent with affected := ent.affected ++ [(env.name, id)] })) :=
        countersMono_updEntAt hent rfl rfl (le_refl _)
      exact countersMono_trans h1
        (countersMono_updEnvAll rfl rfl (fun _ => le_refl _))

theorem joinAll_mono (uuid : String) :
    ∀ (names : List String) (w : World),
      countersMono w (w.joinAll uuid names).1 := by
  intro names
  induction names with
  | nil => intro w; exact countersMono_refl w
  | cons n rest ih =>
    intro w
    cases hn : alFind n w.sup_environments with
    | none => simp only [World.joinAll, hn]; exact countersMono_refl w
    | some id =>
      simp only [World.joinAll, hn]
      cases hr : w.register_joining_entity id uuid with
      | mk w₁ err =>
        have hmono : countersMono w w₁ := by
          have := register_join_mono w id uuid
          rw [hr] at this
          exact this
        cases err with
        | none => exact countersMono_trans hmono (ih w₁)
        | some e => exact hmono

theorem affectAll_mono (uuid : String) :
    ∀ (names : List String) (w : World),
      countersMono w (w.affectAll uuid names).1 := by
  intro names
  induction names with
  | nil => intro w; exact countersMono_refl w
  | cons n rest ih =>
    intro w
    cases hn : alFind n w.sup_environments with
    | none => simp only [World.affectAll, hn]; exact countersMono_refl w
    | some id =>
      simp only [World.affectAll, hn]
      cases hr : w.register_affecting_entity id uuid with
      | mk w₁ err =>
        have hmono : countersMono w w₁ := by
          have := register_affect_mono w id uuid
          rw [hr] at this
          exact this
        cases err with
        | none => exact countersMono_trans hmono (ih w₁)
        | some e => exact hmono

theorem envPollStep_mono (w : World) (B : Nat) (id : Nat) :
    countersMono w (w.envPollStep B id) := by
  cases he : alFind id w.envs with
  | none =>
    simp only [World.envPollStep, he]
    exact countersMono_refl w
  | some env =>
    simp only [World.envPollStep, he]
    have hdrain := Environment.poll_drains B w.shutdown env
    have h1 : countersMono w (w.updateEnv id
        (fun _ => (Environment.poll B w.shutdown env).1)) :=
      countersMono_updEnvAt he rfl rfl (by rw [hdrain.2.2]; omega)
    exact countersMono_trans h1
      (countersMono_foldl
        (fun wa u => wa.updateEnt u (fun s =>
          { s with notify_count := s.notify_count +
              (Environment.poll B w.shutdown env).2.1 }))
        (fun wa u => countersMono_updEntAll rfl rfl (fun _ => le_refl _))
        env.joined_entities
        (w.updateEnv id (fun _ => (Environment.poll B w.shutdown env).1)))

theorem entPoll_mono (w : World) (uuid : String) :
    countersMono w (w.entPoll uuid) := by
  cases hf : alFind uuid w.ents with
  | none =>
    simp only [World.entPoll, hf]
    exact countersMono_refl w
  | some ent =>
    simp only [World.entPoll, hf]
    have h1 : countersMono w ((drainLoop w.outLogs 1 ent.joined).2.1.foldl
        (fun wa t => match ent.core with
          | some f => wa.publishOut ent.affected (f t.2)
          | none => wa) w) := by
      refine countersMono_foldl _ (fun wa t => ?_) _ w
      cases ent.core with
      | none => exact countersMono_refl wa
      | some f => exact countersMono_publishOut wa ent.affected (f t.2)
    exact countersMono_trans h1
      (countersMono_updEntAll rfl rfl (fun s => Nat.le_add_right _ _))

/-- Claim C9: `num_received` never decreases — every operation of the public
surface and every poll leaves every environment's and every entity's
`num_received_effects` at least as large as before, with the object still
present in its heap. -/
theorem claim_C9 (w : World) (op : Op) : countersMono w (w.step op) := by
  cases op with
  | createEnv name =>
    simp only [World.step, World.create_environment]
    by_cases h : (alFind name w.sup_environments).isSome = true
    · rw [if_pos h]
      exact countersMono_refl w
    · rw [if_neg h]
      exact countersMono_extend [(w.nextEnvId, Environment.new name)] []
        rfl (by simp)
  | deleteEnv name =>
    simp only [World.step, World.delete_environment]
    cases h : alFind name w.sup_environments with
    | none =>
      simp only [h]
      exact countersMono_refl w
    | some id =>
      simp only [h]
      have h1 : countersMono w
          { w with sup_environments := alErase name w.sup_environments } :=
        countersMono_eq rfl rfl
      exact countersMono_trans h1
        (countersMono_updEnvAll rfl rfl (fun e => le_refl _))
  | createEnt =>
    simp only [World.step, World.create_entity]
    exact countersMono_extend []
      [(toString w.nextEntId, EntityHost.new (toString w.nextEntId))]
      (by simp) rfl
  | deleteEnt u =>
    simp only [World.step, World.delete_entity]
    by_cases h : w.sup_entities.contains u = true
    · rw [if_pos h]
      have h1 : countersMono w
          { w with sup_entities := w.sup_entities.erase u } :=
        countersMono_eq rfl rfl
      exact countersMono_trans h1
        (countersMono_updEntAll rfl rfl (fun s => le_refl _))
    · rw [if_neg h]
      exact countersMono_refl w
  | joinEnvs u ns =>
    simp only [World.step, World.join_environments]
    by_cases h : ns.all (fun n => (alFind n w.sup_environments).isSome) = true
    · rw [if_pos h]
      exact joinAll_mono u ns w
    · rw [if_neg h]
      exact countersMono_refl w
  | affectEnvs u ns =>
    simp only [World.step, World.affect_environments]
    by_cases h : ns.all (fun n => (alFind n w.sup_environments).isSome) = true
    · rw [if_pos h]
      exact affectAll_mono u ns w
    · rw [if_neg h]
      exact countersMono_refl w
  | injectCore u f =>
    simp only [World.step]
    exact countersMono_updEntAll rfl rfl (fun s => le_refl _)
  | submit e n =>
    simp only [World.step, World.submit_effect]
    cases h : alFind n w.sup_environments with
    | none =>
      simp only [h]
      exact countersMono_refl w
    | some id =>
      simp only [h]
      exact countersMono_updEnvAll rfl rfl (fun e => le_refl _)
  | envPoll B id => exact envPollStep_mono w B id
  | entPoll u => exact entPoll_mono w u
  | pullShutdown =>
    simp only [World.step]
    exact countersMono_eq rfl rfl

/-- Witness for claim C9: a submit keeps environment "X"'s counter, and an
entity poll keeps entity "0"'s counter. -/
theorem claim_C9_witness :
    (∃ e', alFind 0 ((c7World.step (.submit (.Ascii "hi") "X")).envs) = some e' ∧
      (Environment.new "X").num_received_effects ≤ e'.num_received_effects) ∧
    (∃ s', alFind "0" ((c5World.step (.entPoll "0")).ents) = some s' ∧
      (EntityHost.new (toString 0)).num_received_effects ≤
        s'.num_received_effects) :=
  ⟨(claim_C9 c7World (.submit (.Ascii "hi") "X")).1 0 (Environment.new "X")
      (by decide),
   (claim_C9 c5World (.entPoll "0")).2 "0" (EntityHost.new (toString 0)) rfl⟩

/- ----------------------------------------------------------------
Deletion of an environment and unsubscription (claim C3).
---------------------------------------------------------------- -/

theorem alErase_mem {α β : Type} [DecidableEq α] {k : α} {l : List (α × β)}
    {p : α × β} (h : p ∈ alErase k l) : p ∈ l := by
  induction l with
  | nil => cases h
  | cons q rest ih =>
    obtain ⟨k₁, v⟩ := q
    by_cases hk : k₁ = k
    · simp only [alErase, if_pos hk] at h
      exact List.mem_cons_of_mem _ h
    · simp only [alErase, if_neg hk] at h
      rcases List.mem_cons.mp h with h1 | h1
      · exact h1 ▸ List.mem_cons_self _ _
      · exact List.mem_cons_of_mem _ (ih h1)

theorem alFind_alErase_ne {α β : Type} [DecidableEq α] {k j : α}
    (l : List (α × β)) (h : j ≠ k) :
    alFind j (alErase k l) = alFind j l := by
  induction l with
  | nil => rfl
  | cons q rest ih =>
    obtain ⟨k₁, v⟩ := q
    by_cases hk : k₁ = k
    · subst hk
      have : ¬ k₁ = j := fun hh => h hh.symm
      simp [alErase, alFind, this]
    · by_cases hj : k₁ = j <;> simp [alErase, alFind, hk, hj, ih, h]

theorem alFind_eq_none_of_forall {α β : Type} [DecidableEq α] {k : α}
    {l : List (α × β)} (h : ∀ p ∈ l, p.1 ≠ k) : alFind k l = none := by
  induction l with
  | nil => rfl
  | cons q rest ih =>
    obtain ⟨k₁, v⟩ := q
    have hk : k₁ ≠ k := h (k₁, v) (List.mem_cons_self _ _)
    simp only [alFind, if_neg hk]
    exact ih (fun p hp => h p (List.mem_cons_of_mem _ hp))

/-- `delete_environment` of a registered name succeeds: it erases the
connection and pulls the drop notifier of the environment object. -/
theorem delete_env_ok {w : World} {X : String} {k : Nat}
    (h1 : alFind X w.sup_environments = some k) :
    w.delete_environment X =
      (({ w with sup_environments := alErase X w.sup_environments } :
          World).updateEnv k EnvState.send_term_sig, none) := by
  simp only [World.delete_environment, h1]

theorem envDropArmed_updateEnv_pres {w : World} {i : Nat}
    {f : EnvState → EnvState}
    (hf : ∀ e, (f e).drop_notifier = e.drop_notifier) (j : Nat) :
    (w.updateEnv i f).envDropArmed j = w.envDropArmed j := by
  unfold World.envDropArmed World.updateEnv
  by_cases hj : j = i
  · subst hj
    rw [show ({ w with envs := alUpdate j f w.envs } : World).envs =
        alUpdate j f w.envs from rfl, alFind_alUpdate_self]
    cases alFind j w.envs <;> simp [hf]
  · rw [show ({ w with envs := alUpdate i f w.envs } : World).envs =
        alUpdate i f w.envs from rfl, alFind_alUpdate_ne _ _ hj]

theorem entJoinedIds_updateEnt_pres {w : World} {v : String}
    {f : EntityState → EntityState} (hf : ∀ s, (f s).joined = s.joined)
    (u : String) :
    (w.updateEnt v f).entJoinedIds u = w.entJoinedIds u := by
  unfold World.entJoinedIds World.updateEnt
  by_cases hu : u = v
  · subst hu
    rw [show ({ w with ents := alUpdate u f w.ents } : World).ents =
        alUpdate u f w.ents from rfl, alFind_alUpdate_self]
    cases alFind u w.ents <;> simp [hf]
  · rw [show ({ w with ents := alUpdate v f w.ents } : World).ents =
        alUpdate v f w.ents from rfl, alFind_alUpdate_ne _ _ hu]

theorem publishOut_ents (w : World) (a : List (String × Nat)) (o : Effect) :
    (w.publishOut a o).ents = w.ents := by
  unfold World.publishOut
  induction a generalizing w with
  | nil => rfl
  | cons p rest ih => exact ih _

theorem publishOut_sup (w : World) (a : List (String × Nat)) (o : Effect) :
    (w.publishOut a o).sup_environments = w.sup_environments := by
  unfold World.publishOut
  induction a generalizing w with
  | nil => rfl
  | cons p rest ih => exact ih _

theorem publishOut_nextEnvId (w : World) (a : List (String × Nat))
    (o : Effect) : (w.publishOut a o).nextEnvId = w.nextEnvId := by
  unfold World.publishOut
  induction a generalizing w with
  | nil => rfl
  | cons p rest ih => exact ih _

theorem publishOut_dropArmed (w : World) (a : List (String × Nat))
    (o : Effect) (j : Nat) :
    (w.publishOut a o).envDropArmed j = w.envDropArmed j := by
  unfold World.publishOut
  induction a generalizing w with
  | nil => rfl
  | cons p rest ih =>
    rw [List.foldl_cons, ih]
    refine envDropArmed_updateEnv_pres ?_ j
    intro e
    rfl

theorem pubFold_ents (ent : EntityState) (l : List (Nat × Effect))
    (w : World) : (pubFold ent l w).ents = w.ents := by
  unfold pubFold
  induction l generalizing w with
  | nil => rfl
  | cons t rest ih =>
    rw [List.foldl_cons, ih]
    cases ent.core with
    | none => rfl
    | some f => exact publishOut_ents _ _ _

theorem pubFold_sup (ent : EntityState) (l : List (Nat × Effect))
    (w : World) : (pubFold ent l w).sup_environments = w.sup_environments := by
  unfold pubFold
  induction l generalizing w with
  | nil => rfl
  | cons t rest ih =>
    rw [List.foldl_cons, ih]
    cases ent.core with
    | none => rfl
    | some f => exact publishOut_sup _ _ _

theorem pubFold_nextEnvId (ent : EntityState) (l : List (Nat × Effect))
    (w : World) : (pubFold ent l w).nextEnvId = w.nextEnvId := by
  unfold pubFold
  induction l generalizing w with
  | nil => rfl
  | cons t rest ih =>
    rw [List.foldl_cons, ih]
    cases ent.core with
    | none => rfl
    | some f => exact publishOut_nextEnvId _ _ _

theorem pubFold_dropArmed (ent : EntityState) (l : List (Nat × Effect))
    (w : World) (j : Nat) :
    (pubFold ent l w).envDropArmed j = w.envDropArmed j := by
  unfold pubFold
  induction l generalizing w with
  | nil => rfl
  | cons t rest ih =>
    rw [List.foldl_cons, ih]
    cases ent.core with
    | none => rfl
    | some f => exact publishOut_dropArmed _ _ _ _

theorem drainLoop_one_fst (logs : Nat → List Effect)
    (joined : List (String × JoinedEnvironment)) :
    (drainLoop logs 1 joined).1 = (drainPass logs joined).1 := by
  rw [show (1 : Nat) = 0 + 1 from rfl, drainLoop_breaks_first_pass]

theorem drainLoop_one_received (logs : Nat → List Effect)
    (joined : List (String × JoinedEnvironment)) :
    (drainLoop logs 1 joined).2.1 = (drainPass logs joined).2.1 := by
  rw [show (1 : Nat) = 0 + 1 from rfl, drainLoop_breaks_first_pass]

/-- The entity poll at a live entity, written out: the publish fold followed
by the update installing the advanced, drop-filtered joined map and the new
counter. -/
theorem entPoll_eq {w : World} {u : String} {ent : EntityState}
    (hent : alFind u w.ents = some ent) :
    w.entPoll u =
      (pubFold ent (drainLoop w.outLogs 1 ent.joined).2.1 w).updateEnt u
        (fun s =>
          { s with
            joined := (drainLoop w.outLogs 1 ent.joined).1.filter
              (fun p => !((((drainLoop w.outLogs 1 ent.joined).1.filter
                  (fun q => (pubFold ent
                      (drainLoop w.outLogs 1 ent.joined).2.1
                      w).envDropArmed q.2.envId)).map
                  (fun q => q.1)).contains p.1))
            num_received_effects := s.num_received_effects +
              (drainLoop w.outLogs 1 ent.joined).2.1.length }) := by
  simp only [World.entPoll, hent]
  rfl

theorem entPoll_none {w : World} {u : String}
    (h : alFind u w.ents = none) : w.entPoll u = w := by
  simp only [World.entPoll, h]

theorem entPoll_sup (w : World) (v : String) :
    (w.entPoll v).sup_environments = w.sup_environments := by
  cases h : alFind v w.ents with
  | none => rw [entPoll_none h]
  | some ent =>
    rw [entPoll_eq h]
    exact pubFold_sup ent _ w

theorem entPoll_nextEnvId (w : World) (v : String) :
    (w.entPoll v).nextEnvId = w.nextEnvId := by
  cases h : alFind v w.ents with
  | none => rw [entPoll_none h]
  | some ent =>
    rw [entPoll_eq h]
    exact pubFold_nextEnvId ent _ w

theorem drainPass_pairs_mem (logs : Nat → List Effect)
    (joined : List (String × JoinedEnvironment))
    {p : String × JoinedEnvironment} (hp : p ∈ (drainPass logs joined).1) :
    (p.1, p.2.envId) ∈ joined.map (fun q => (q.1, q.2.envId)) := by
  have hk := drainPass_keys logs joined
  have hmem : (p.1, p.2.envId) ∈
      (drainPass logs joined).1.map (fun q => (q.1, q.2.envId)) :=
    List.mem_map_of_mem _ hp
  rw [hk] at hmem
  exact hmem

/-- The value of the joined-id list after updating one entity to a fixed new
state. -/
theorem entJoinedIds_updateEnt_const {w : World} {v : String}
    {ent : EntityState} (newent : EntityState)
    (hv : alFind v w.ents = some ent) (u : String) :
    (w.updateEnt v (fun _ => newent)).entJoinedIds u =
      if u = v then newent.joined.map (fun p => p.2.envId)
      else w.entJoinedIds u := by
  unfold World.entJoinedIds World.updateEnt
  by_cases hu : u = v
  · subst hu
    rw [if_pos rfl,
      show ({ w with ents := alUpdate u (fun _ => newent) w.ents } :
        World).ents = alUpdate u (fun _ => newent) w.ents from rfl,
      alFind_alUpdate_self, hv]
    rfl
  · rw [if_neg hu,
      show ({ w with ents := alUpdate v (fun _ => newent) w.ents } :
        World).ents = alUpdate v (fun _ => newent) w.ents from rfl,
      alFind_alUpdate_ne _ _ hu]

theorem entPoll_joinedIds_subset (w : World) (v u : String) (i : Nat)
    (h : i ∈ (w.entPoll v).entJoinedIds u) : i ∈ w.entJoinedIds u := by
  cases hv : alFind v w.ents with
  | none => rw [entPoll_none hv] at h; exact h
  | some ent =>
    rw [entPoll_eq hv] at h
    by_cases huv : u = v
    · subst huv
      have hents :
          (pubFold ent (drainLoop w.outLogs 1 ent.joined).2.1 w).ents =
            w.ents := pubFold_ents _ _ _
      unfold World.entJoinedIds World.updateEnt at h
      rw [show ∀ (w₁ : World) (f : EntityState → EntityState),
            ({ w₁ with ents := alUpdate u f w₁.ents } : World).ents =
              alUpdate u f w₁.ents from fun _ _ => rfl,
        alFind_alUpdate_self, hents, hv] at h
      simp only [Option.map_some', Option.getD_some] at h
      rw [drainLoop_one_fst] at h
      simp only [List.mem_map] at h
      obtain ⟨p, hp, hpi⟩ := h
      have hp' : p ∈ (drainPass w.outLogs ent.joined).1 :=
        List.mem_of_mem_filter hp
      have hpair := drainPass_pairs_mem w.outLogs ent.joined hp'
      simp only [List.mem_map] at hpair
      obtain ⟨q, hq, hqe⟩ := hpair
      unfold World.entJoinedIds
      rw [hv]
      simp only [Option.map_some', Option.getD_some, List.mem_map]
      refine ⟨q, hq, ?_⟩
      have : q.2.envId = p.2.envId := congrArg Prod.snd hqe
      rw [this, hpi]
    · have hents :
          (pubFold ent (drainLoop w.outLogs 1 ent.joined).2.1 w).ents =
            w.ents := pubFold_ents _ _ _
      unfold World.entJoinedIds World.updateEnt at h
      rw [show ∀ (w₁ : World) (f : EntityState → EntityState),
            ({ w₁ with ents := alUpdate v f w₁.ents } : World).ents =
              alUpdate v f w₁.ents from fun _ _ => rfl,
        alFind_alUpdate_ne _ _ huv, hents] at h
      exact h

theorem entPollReceived_tags (w : World) (u : String) (t : Nat × Effect)
    (ht : t ∈ w.entPollReceived u) : t.1 ∈ w.entJoinedIds u := by
  cases hu : alFind u w.ents with
  | none => simp [World.entPollReceived, hu] at ht
  | some ent =>
    simp only [World.entPollReceived, hu] at ht
    rw [drainLoop_one_received] at ht
    have hm := drainPass_tags w.outLogs ent.joined t ht
    unfold World.entJoinedIds
    rw [hu]
    simpa using hm

theorem register_join_pres (k : Nat) (u : String) {w w₁ : World} {id : Nat}
    {uuid : String} {err : Option Error}
    (h : w.register_joining_entity id uuid = (w₁, err)) :
    w₁.sup_environments = w.sup_environments ∧ w₁.nextEnvId = w.nextEnvId ∧
    (k ∉ w.entJoinedIds u → id ≠ k → k ∉ w₁.entJoinedIds u) := by
  cases err with
  | some e =>
    rw [register_join_err h]
    exact ⟨rfl, rfl, fun hC _ => hC⟩
  | none =>
    obtain ⟨env, ent, henv, hent, -, hw₁⟩ := register_join_ok h
    subst hw₁
    refine ⟨rfl, rfl, fun hC hik => ?_⟩
    have hids := entJoinedIds_updateEnt_const
      { ent with joined := ent.joined ++
        [(env.name, { envId := id, cursor := env.out_log.length })] }
      hent u
    -- the outer updateEnv does not touch the entity heap
    show k ∉ ((w.updateEnt uuid _).updateEnv id _).entJoinedIds u
    have heq : ((w.updateEnt uuid (fun _ =>
        { ent with joined := ent.joined ++
          [(env.name, { envId := id, cursor := env.out_log.length })] })).updateEnv
        id (fun s =>
          { s with joined_entities := s.joined_entities ++ [uuid] })).entJoinedIds u =
        (w.updateEnt uuid (fun _ =>
          { ent with joined := ent.joined ++
            [(env.name, { envId := id, cursor := env.out_log.length })] })).entJoinedIds u := rfl
    rw [heq, hids]
    by_cases hu : u = uuid
    · rw [if_pos hu]
      intro hmem
      simp only [List.map_append, List.mem_append] at hmem
      rcases hmem with hmem | hmem
      · apply hC
        unfold World.entJoinedIds
        have : alFind u w.ents = some ent := hu ▸ hent
        rw [this]
        simpa using hmem
      · simp at hmem
        exact hik hmem.symm
    · rw [if_neg hu]
      exact hC

theorem joinAll_unlinked (k : Nat) (u uuid : String) :
    ∀ (names : List String) (w : World),
      (∀ p ∈ w.sup_environments, p.2 ≠ k) → k ∉ w.entJoinedIds u →
      ((w.joinAll uuid names).1.sup_environments = w.sup_environments ∧
       (w.joinAll uuid names).1.nextEnvId = w.nextEnvId ∧
       k ∉ (w.joinAll uuid names).1.entJoinedIds u) := by
  intro names
  induction names with
  | nil => intro w hA hC; exact ⟨rfl, rfl, hC⟩
  | cons n rest ih =>
    intro w hA hC
    cases hn : alFind n w.sup_environments with
    | none =>
      have hres : w.joinAll uuid (n :: rest) =
          (w, some (.App "unwrap of a vanished connection")) := by
        simp [World.joinAll, hn]
      rw [hres]
      exact ⟨rfl, rfl, hC⟩
    | some id =>
      simp only [World.joinAll, hn]
      have hik : id ≠ k := hA (n, id) (alFind_mem hn)
      cases hr : w.register_joining_entity id uuid with
      | mk w₁ err =>
        obtain ⟨hsup, hnext, hids⟩ := register_join_pres k u hr
        have hC₁ : k ∉ w₁.entJoinedIds u := hids hC hik
        cases err with
        | some e => exact ⟨hsup, hnext, hC₁⟩
        | none =>
          have hA₁ : ∀ p ∈ w₁.sup_environments, p.2 ≠ k := by
            rw [hsup]; exact hA
          obtain ⟨hsup₂, hnext₂, hC₂⟩ := ih w₁ hA₁ hC₁
          exact ⟨by rw [hsup₂, hsup], by rw [hnext₂, hnext], hC₂⟩

theorem register_affect_pres (k : Nat) (u : String) {w w₁ : World}
    {id : Nat} {uuid : String} {err : Option Error}
    (h : w.register_affecting_entity id uuid = (w₁, err)) :
    w₁.sup_environments = w.sup_environments ∧ w₁.nextEnvId = w.nextEnvId ∧
    (k ∉ w.entJoinedIds u → k ∉ w₁.entJoinedIds u) := by
  cases err with
  | some e =>
    rw [register_affect_err h]
    exact ⟨rfl, rfl, fun hC => hC⟩
  | none =>
    obtain ⟨env, ent, henv, hent, hw₁⟩ := register_affect_ok h
    subst hw₁
    refine ⟨rfl, rfl, fun hC => ?_⟩
    have hids := entJoinedIds_updateEnt_const
      { ent with affected := ent.affected ++ [(env.name, id)] }
      hent u
    have heq : ((w.updateEnt uuid (fun _ =>
        { ent with affected := ent.affected ++ [(env.name, id)] })).updateEnv
        id (fun s =>
          { s with affecting_entities := s.affecting_entities ++ [uuid] })).entJoinedIds u =
        (w.updateEnt uuid (fun _ =>
          { ent with affected := ent.affected ++ [(env.name, id)] })).entJoinedIds u := rfl
    rw [heq, hids]
    by_cases hu : u = uuid
    · rw [if_pos hu]
      intro hmem
      apply hC
      unfold World.entJoinedIds
      have : alFind u w.ents = some ent := hu ▸ hent
      rw [this]
      simpa using hmem
    · rw [if_neg hu]
      exact hC

theorem affectAll_unlinked (k : Nat) (u uuid : String) :
    ∀ (names : List String) (w : World),
      (∀ p ∈ w.sup_environments, p.2 ≠ k) → k ∉ w.entJoinedIds u →
      ((w.affectAll uuid names).1.sup_environments = w.sup_environments ∧
       (w.affectAll uuid names).1.nextEnvId = w.nextEnvId ∧
       k ∉ (w.affectAll uuid names).1.entJoinedIds u) := by
  intro names
  induction names with
  | nil => intro w hA hC; exact ⟨rfl, rfl, hC⟩
  | cons n rest ih =>
    intro w hA hC
    cases hn : alFind n w.sup_environments with
    | none =>
      have hres : w.affectAll uuid (n :: rest) =
          (w, some (.App "unwrap of a vanished connection")) := by
        simp [World.affectAll, hn]
      rw [hres]
      exact ⟨rfl, rfl, hC⟩
    | some id =>
      simp only [World.affectAll, hn]
      cases hr : w.register_affecting_entity id uuid with
      | mk w₁ err =>
        obtain ⟨hsup, hnext, hids⟩ := register_affect_pres k u hr
        have hC₁ : k ∉ w₁.entJoinedIds u := hids hC
        cases err with
        | some e => exact ⟨hsup, hnext, hC₁⟩
        | none =>
          have hA₁ : ∀ p ∈ w₁.sup_environments, p.2 ≠ k := by
            rw [hsup]; exact hA
          obtain ⟨hsup₂, hnext₂, hC₂⟩ := ih w₁ hA₁ hC₁
          exact ⟨by rw [hsup₂, hsup], by rw [hnext₂, hnext], hC₂⟩

theorem notifyFold_sup (m : Nat) (l : List String) :
    ∀ w : World,
      (l.foldl (fun wa v => wa.updateEnt v (fun s =>
        { s with notify_count := s.notify_count + m })) w).sup_environments =
        w.sup_environments := by
  induction l with
  | nil => intro w; rfl
  | cons v rest ih => intro w; exact ih _

theorem notifyFold_nextEnvId (m : Nat) (l : List String) :
    ∀ w : World,
      (l.foldl (fun wa v => wa.updateEnt v (fun s =>
        { s with notify_count := s.notify_count + m })) w).nextEnvId =
        w.nextEnvId := by
  induction l with
  | nil => intro w; rfl
  | cons v rest ih => intro w; exact ih _

theorem notifyFold_joinedIds (m : Nat) (l : List String) :
    ∀ (w : World) (u : String),
      (l.foldl (fun wa v => wa.updateEnt v (fun s =>
        { s with notify_count := s.notify_count + m })) w).entJoinedIds u =
        w.entJoinedIds u := by
  induction l with
  | nil => intro w u; rfl
  | cons v rest ih =>
    intro w u
    rw [List.foldl_cons, ih]
    refine entJoinedIds_updateEnt_pres ?_ u
    intro s
    rfl

/-- Once unlinked, an entity stays unlinked from a deleted environment's id
under every operation: the id cannot re-enter the registry (fresh ids grow),
`join_environments` only installs registered ids, and the entity poll only
removes entries. -/
theorem unlinked_step {k : Nat} {u : String} {w : World}
    (h : UnlinkedFromEnv k u w) (op : Op) :
    UnlinkedFromEnv k u (w.step op) := by
  obtain ⟨hA, hB, hC⟩ := h
  cases op with
  | createEnv name =>
    simp only [World.step, World.create_environment]
    by_cases hd : (alFind name w.sup_environments).isSome = true
    · rw [if_pos hd]
      exact ⟨hA, hB, hC⟩
    · rw [if_neg hd]
      refine ⟨?_, by simp; omega, hC⟩
      intro p hp
      rcases List.mem_append.mp hp with h1 | h1
      · exact hA p h1
      · have hp' : p = (name, w.nextEnvId) := by simpa using h1
        subst hp'
        simp only []
        omega
  | deleteEnv name =>
    simp only [World.step, World.delete_environment]
    cases hd : alFind name w.sup_environments with
    | none =>
      simp only [hd]
      exact ⟨hA, hB, hC⟩
    | some id =>
      simp only [hd]
      exact ⟨fun p hp => hA p (alErase_mem hp), hB, hC⟩
  | createEnt =>
    simp only [World.step, World.create_entity]
    refine ⟨hA, hB, ?_⟩
    unfold World.entJoinedIds
    cases hu : alFind u w.ents with
    | some s =>
      rw [show ({ w with
          nextEntId := w.nextEntId + 1
          ents := w.ents ++
            [(toString w.nextEntId, EntityHost.new (toString w.nextEntId))]
          sup_entities := w.sup_entities ++ [toString w.nextEntId] } :
            World).ents = w.ents ++
            [(toString w.nextEntId, EntityHost.new (toString w.nextEntId))]
          from rfl,
        alFind_append_of_some _ hu]
      unfold World.entJoinedIds at hC
      rw [hu] at hC
      exact hC
    | none =>
      rw [show ({ w with
          nextEntId := w.nextEntId + 1
          ents := w.ents ++
            [(toString w.nextEntId, EntityHost.new (toString w.nextEntId))]
          sup_entities := w.sup_entities ++ [toString w.nextEntId] } :
            World).ents = w.ents ++
            [(toString w.nextEntId, EntityHost.new (toString w.nextEntId))]
          from rfl,
        alFind_append_of_none _ hu]
      by_cases hv : toString w.nextEntId = u
      · simp [alFind, hv, EntityHost.new]
      · simp [alFind, hv]
  | deleteEnt v =>
    simp only [World.step, World.delete_entity]
    by_cases hd : w.sup_entities.contains v = true
    · rw [if_pos hd]
      refine ⟨hA, hB, ?_⟩
      have hpres : (({ w with sup_entities := w.sup_entities.erase v } :
          World).updateEnt v (fun s =>
            { s with own_term := s.own_term.pull })).entJoinedIds u =
          ({ w with sup_entities := w.sup_entities.erase v } :
            World).entJoinedIds u := by
        refine entJoinedIds_updateEnt_pres ?_ u
        intro s
        rfl
      rw [hpres]
      exact hC
    · rw [if_neg hd]
      exact ⟨hA, hB, hC⟩
  | joinEnvs v ns =>
    simp only [World.step, World.join_environments]
    by_cases hd : ns.all (fun n => (alFind n w.sup_environments).isSome) = true
    · rw [if_pos hd]
      obtain ⟨hsup, hnext, hC'⟩ := joinAll_unlinked k u v ns w hA hC
      exact ⟨by rw [hsup]; exact hA, by rw [hnext]; exact hB, hC'⟩
    · rw [if_neg hd]
      exact ⟨hA, hB, hC⟩
  | affectEnvs v ns =>
    simp only [World.step, World.affect_environments]
    by_cases hd : ns.all (fun n => (alFind n w.sup_environments).isSome) = true
    · rw [if_pos hd]
      obtain ⟨hsup, hnext, hC'⟩ := affectAll_unlinked k u v ns w hA hC
      exact ⟨by rw [hsup]; exact hA, by rw [hnext]; exact hB, hC'⟩
    · rw [if_neg hd]
      exact ⟨hA, hB, hC⟩
  | injectCore v f =>
    simp only [World.step]
    refine ⟨hA, hB, ?_⟩
    have hpres : (w.updateEnt v (fun s => s.inject_core f)).entJoinedIds u =
        w.entJoinedIds u := by
      refine entJoinedIds_updateEnt_pres ?_ u
      intro s
      rfl
    rw [hpres]
    exact hC
  | submit e n =>
    simp only [World.step, World.submit_effect]
    cases hd : alFind n w.sup_environments with
    | none =>
      simp only [hd]
      exact ⟨hA, hB, hC⟩
    | some id =>
      simp only [hd]
      exact ⟨hA, hB, hC⟩
  | envPoll B id =>
    simp only [World.step]
    cases hd : alFind id w.envs with
    | none =>
      simp only [World.envPollStep, hd]
      exact ⟨hA, hB, hC⟩
    | some env =>
      simp only [World.envPollStep, hd]
      refine ⟨?_, ?_, ?_⟩
      · rw [notifyFold_sup]
        exact hA
      · rw [notifyFold_nextEnvId]
        exact hB
      · rw [notifyFold_joinedIds]
        exact hC
  | entPoll v =>
    refine ⟨?_, ?_, ?_⟩
    · show ∀ p ∈ (w.entPoll v).sup_environments, p.2 ≠ k
      rw [entPoll_sup]
      exact hA
    · show k < (w.entPoll v).nextEnvId
      rw [entPoll_nextEnvId]
      exact hB
    · exact fun hk => hC (entPoll_joinedIds_subset w v u k hk)
  | pullShutdown =>
    simp only [World.step]
    exact ⟨hA, hB, hC⟩

theorem unlinked_steps {k : Nat} {u : String} :
    ∀ (ops : List Op) (w : World), UnlinkedFromEnv k u w →
      UnlinkedFromEnv k u (w.steps ops) := by
  intro ops
  induction ops with
  | nil => intro w h; exact h
  | cons op rest ih =>
    intro w h
    exact ih _ (unlinked_step h op)

theorem map_fst_filter_ne (X : String)
    (l : List (String × JoinedEnvironment)) :
    (l.filter (fun p => !(p.1 == X))).map Prod.fst =
      (l.map Prod.fst).filter (fun n => !(n == X)) := by
  induction l with
  | nil => rfl
  | cons p rest ih =>
    cases hp : (p.1 == X) with
    | true => simp [List.filter_cons, hp, ih]
    | false => simp [List.filter_cons, hp, ih]

/-- The entity poll in a world where exactly the environments the entity
joined under the name `X` have a pulled drop notifier (their reader ids all
equal `k`): the poll keeps every joined entry except those named `X`, whose
environment sent the term signal. -/
theorem entPoll_unsub {v : World} {u X : String} {k : Nat}
    {ent : EntityState} (hent : alFind u v.ents = some ent)
    (h7 : ∀ p ∈ ent.joined, p.1 = X → p.2.envId = k)
    (h8 : ∀ p ∈ ent.joined, p.2.envId = k → p.1 = X)
    (hk : v.envDropArmed k = true)
    (ho : ∀ p ∈ ent.joined, p.2.envId ≠ k →
      v.envDropArmed p.2.envId = false) :
    (v.entPoll u).entJoined u =
      (drainPass v.outLogs ent.joined).1.filter (fun p => !(p.1 == X)) := by
  rw [entPoll_eq hent]
  unfold World.entJoined World.updateEnt
  rw [show ∀ (w₁ : World) (f : EntityState → EntityState),
        ({ w₁ with ents := alUpdate u f w₁.ents } : World).ents =
          alUpdate u f w₁.ents from fun _ _ => rfl,
    alFind_alUpdate_self, pubFold_ents, hent]
  simp only [Option.map_some', Option.getD_some]
  simp only [drainLoop_one_fst]
  refine List.filter_congr ?_
  intro p hp
  have hpair := drainPass_pairs_mem v.outLogs ent.joined hp
  simp only [List.mem_map] at hpair
  obtain ⟨q, hqmem, hqe⟩ := hpair
  have hq1 : q.1 = p.1 := (Prod.mk.injEq _ _ _ _ |>.mp hqe).1
  have hq2 : q.2.envId = p.2.envId := (Prod.mk.injEq _ _ _ _ |>.mp hqe).2
  have harmed : ∀ j, (pubFold ent (drainLoop v.outLogs 1 ent.joined).2.1
      v).envDropArmed j = v.envDropArmed j :=
    pubFold_dropArmed ent _ v
  by_cases hx : p.1 = X
  · -- this entry's environment was deleted: it is dropped
    have hpk : p.2.envId = k := by
      rw [← hq2]
      exact h7 q hqmem (by rw [hq1, hx])
    have harm : (pubFold ent (drainLoop v.outLogs 1 ent.joined).2.1
        v).envDropArmed p.2.envId = true := by
      rw [harmed, hpk]
      exact hk
    have hmemf : p ∈ (drainPass v.outLogs ent.joined).1.filter
        (fun q' => (pubFold ent (drainLoop v.outLogs 1 ent.joined).2.1
          v).envDropArmed q'.2.envId) :=
      List.mem_filter.mpr ⟨hp, harm⟩
    have hmemd : p.1 ∈ ((drainPass v.outLogs ent.joined).1.filter
        (fun q' => (pubFold ent (drainLoop v.outLogs 1 ent.joined).2.1
          v).envDropArmed q'.2.envId)).map (fun q' => q'.1) :=
      List.mem_map_of_mem _ hmemf
    have hcont : (((drainPass v.outLogs ent.joined).1.filter
        (fun q' => (pubFold ent (drainLoop v.outLogs 1 ent.joined).2.1
          v).envDropArmed q'.2.envId)).map (fun q' => q'.1)).contains p.1 =
        true := by
      simpa [List.elem_iff] using hmemd
    rw [hcont, show (p.1 == X) = true by simp [hx]]
  · -- this entry's environment was not deleted: it is kept
    have hcont : (((drainPass v.outLogs ent.joined).1.filter
        (fun q' => (pubFold ent (drainLoop v.outLogs 1 ent.joined).2.1
          v).envDropArmed q'.2.envId)).map (fun q' => q'.1)).contains p.1 =
        false := by
      cases hcc : (((drainPass v.outLogs ent.joined).1.filter
          (fun q' => (pubFold ent (drainLoop v.outLogs 1 ent.joined).2.1
            v).envDropArmed q'.2.envId)).map (fun q' => q'.1)).contains p.1 with
      | false => rfl
      | true =>
        exfalso
        have hmemd : p.1 ∈ ((drainPass v.outLogs ent.joined).1.filter
            (fun q' => (pubFold ent (drainLoop v.outLogs 1 ent.joined).2.1
              v).envDropArmed q'.2.envId)).map (fun q' => q'.1) := by
          simpa [List.elem_iff] using hcc
        simp only [List.mem_map] at hmemd
        obtain ⟨q', hq'f, hq'1⟩ := hmemd
        have hq'mem := List.mem_of_mem_filter hq'f
        have hq'armed := (List.mem_filter.mp hq'f).2
        rw [harmed] at hq'armed
        have hpair' := drainPass_pairs_mem v.outLogs ent.joined hq'mem
        simp only [List.mem_map] at hpair'
        obtain ⟨r, hrmem, hre⟩ := hpair'
        have hr1 : r.1 = q'.1 := (Prod.mk.injEq _ _ _ _ |>.mp hre).1
        have hr2 : r.2.envId = q'.2.envId := (Prod.mk.injEq _ _ _ _ |>.mp hre).2
        by_cases hrk : r.2.envId = k
        · have : r.1 = X := h8 r hrmem hrk
          apply hx
          rw [← hq'1, ← hr1, this]
        · have : v.envDropArmed r.2.envId = false := ho r hrmem hrk
          rw [hr2] at this
          rw [this] at hq'armed
          cases hq'armed
    rw [hcont, show (p.1 == X) = false by simp [hx]]

theorem entJoinedNames_eq (w : World) (u : String) :
    w.entJoinedNames u = (w.entJoined u).map (fun p => p.1) := by
  unfold World.entJoinedNames World.entJoined
  cases alFind u w.ents <;> rfl

theorem entJoinedIds_eq (w : World) (u : String) :
    w.entJoinedIds u = (w.entJoined u).map (fun p => p.2.envId) := by
  unfold World.entJoinedIds World.entJoined
  cases alFind u w.ents <;> rfl

theorem drainPass_names (logs : Nat → List Effect)
    (joined : List (String × JoinedEnvironment)) :
    (drainPass logs joined).1.map (fun p => p.1) =
      joined.map (fun p => p.1) := by
  have h := congrArg (List.map Prod.fst) (drainPass_keys logs joined)
  simpa [List.map_map, Function.comp] using h

/-- Claim C3: deleting the registered environment "X" (connection id `k`)
removes exactly X's connection from the registry and pulls X's drop
notifier; an entity that had joined X drops X from its joined map on its
next poll, keeping every other joined entry; and from then on, under any
sequence of further operations, the entity holds no reader for the deleted
environment and its drain delivers no effect from it.  The hypotheses state
that the claim's world is well formed: registry keys and the id `k` are not
duplicated, every registered id is below `nextEnvId` and denotes a live
object, the entity object is live, its joined entries named X are exactly
those reading from environment `k`, and no other joined environment has a
pulled drop notifier. -/
theorem claim_C3 (w : World) (X : String) (k : Nat) (u : String)
    (je : JoinedEnvironment)
    (h1 : alFind X w.sup_environments = some k)
    (h2 : ∀ p ∈ alErase X w.sup_environments, p.1 ≠ X)
    (h3 : ∀ p ∈ alErase X w.sup_environments, p.2 ≠ k)
    (h4 : ∀ p ∈ w.sup_environments, p.2 < w.nextEnvId)
    (h5 : alFind X (w.entJoined u) = some je)
    (h6 : je.envId = k)
    (h7 : ∀ p ∈ w.entJoined u, p.1 = X → p.2.envId = k)
    (h8 : ∀ p ∈ w.entJoined u, p.2.envId = k → p.1 = X)
    (h9 : ∀ p ∈ w.entJoined u, p.2.envId ≠ k →
      w.envDropArmed p.2.envId = false)
    (h10 : (alFind u w.ents).isSome = true)
    (h11 : (alFind k w.envs).isSome = true) :
    ((w.delete_environment X).2 = none) ∧
    (alFind X (w.delete_environment X).1.sup_environments = none) ∧
    (∀ Y, Y ≠ X → alFind Y (w.delete_environment X).1.sup_environments =
      alFind Y w.sup_environments) ∧
    ((w.delete_environment X).1.envDropArmed k = true) ∧
    (X ∉ ((w.delete_environment X).1.entPoll u).entJoinedNames u) ∧
    (((w.delete_environment X).1.entPoll u).entJoinedNames u =
      (w.entJoinedNames u).filter (fun n => !(n == X))) ∧
    (∀ n ∈ w.entJoinedNames u, n ≠ X →
      n ∈ ((w.delete_environment X).1.entPoll u).entJoinedNames u) ∧
    (∀ ops : List Op,
      k ∉ (((w.delete_environment X).1.entPoll u).steps ops).entJoinedIds u ∧
      ∀ t ∈ (((w.delete_environment X).1.entPoll u).steps
          ops).entPollReceived u, t.1 ≠ k) := by
  have hdel := delete_env_ok h1
  obtain ⟨ent, heu⟩ : ∃ ent, alFind u w.ents = some ent := by
    cases hh : alFind u w.ents with
    | none => rw [hh] at h10; cases h10
    | some s => exact ⟨s, rfl⟩
  have hjoined : w.entJoined u = ent.joined := by
    unfold World.entJoined
    rw [heu]
    rfl
  rw [hjoined] at h7 h8 h9
  -- facts about the world right after the deletion
  have hW₁ents : (({ w with
      sup_environments := alErase X w.sup_environments } : World).updateEnv
      k EnvState.send_term_sig).ents = w.ents := rfl
  have hW₁k : (({ w with
      sup_environments := alErase X w.sup_environments } : World).updateEnv
      k EnvState.send_term_sig).envDropArmed k = true := by
    unfold World.envDropArmed
    rw [show (({ w with
        sup_environments := alErase X w.sup_environments } : World).updateEnv
        k EnvState.send_term_sig).envs =
        alUpdate k EnvState.send_term_sig w.envs from rfl,
      alFind_alUpdate_self]
    cases hk : alFind k w.envs with
    | none => rw [hk] at h11; cases h11
    | some e => simp [EnvState.send_term_sig, Trigger.pull]
  have hW₁o : ∀ j, j ≠ k → (({ w with
      sup_environments := alErase X w.sup_environments } : World).updateEnv
      k EnvState.send_term_sig).envDropArmed j = w.envDropArmed j := by
    intro j hj
    unfold World.envDropArmed
    rw [show (({ w with
        sup_environments := alErase X w.sup_environments } : World).updateEnv
        k EnvState.send_term_sig).envs =
        alUpdate k EnvState.send_term_sig w.envs from rfl,
      alFind_alUpdate_ne _ _ hj]
  have hentD : alFind u (({ w with
      sup_environments := alErase X w.sup_environments } : World).updateEnv
      k EnvState.send_term_sig).ents = some ent := by
    rw [hW₁ents]
    exact heu
  have hoD : ∀ p ∈ ent.joined, p.2.envId ≠ k → (({ w with
      sup_environments := alErase X w.sup_environments } : World).updateEnv
      k EnvState.send_term_sig).envDropArmed p.2.envId = false := by
    intro p hp hpk
    rw [hW₁o _ hpk]
    exact h9 p hp hpk
  have hunsub := entPoll_unsub hentD h7 h8 hW₁k hoD
  -- the names of the joined map after the unsubscribing poll
  have hnames : ((({ w with
      sup_environments := alErase X w.sup_environments } : World).updateEnv
      k EnvState.send_term_sig).entPoll u).entJoinedNames u =
      (w.entJoinedNames u).filter (fun n => !(n == X)) := by
    rw [entJoinedNames_eq, hunsub]
    have hmf := map_fst_filter_ne X
      (drainPass (({ w with
        sup_environments := alErase X w.sup_environments } : World).updateEnv
        k EnvState.send_term_sig).outLogs ent.joined).1
    have hnm : (drainPass (({ w with
        sup_environments := alErase X w.sup_environments } : World).updateEnv
        k EnvState.send_term_sig).outLogs ent.joined).1.map
        (fun p => p.1) = ent.joined.map (fun p => p.1) :=
      drainPass_names _ ent.joined
    rw [entJoinedNames_eq w u, hjoined]
    calc ((drainPass (({ w with
          sup_environments := alErase X w.sup_environments } : World).updateEnv
          k EnvState.send_term_sig).outLogs ent.joined).1.filter
          (fun p => !(p.1 == X))).map (fun p => p.1)
        = ((drainPass (({ w with
            sup_environments := alErase X w.sup_environments } :
              World).updateEnv
            k EnvState.send_term_sig).outLogs ent.joined).1.map
            (fun p => p.1)).filter (fun n => !(n == X)) := by
          simpa using hmf
      _ = (ent.joined.map (fun p => p.1)).filter (fun n => !(n == X)) := by
          rw [hnm]
  -- the joined ids after the unsubscribing poll exclude k
  have hidsafter : k ∉ ((({ w with
      sup_environments := alErase X w.sup_environments } : World).updateEnv
      k EnvState.send_term_sig).entPoll u).entJoinedIds u := by
    rw [entJoinedIds_eq, hunsub]
    intro hmem
    simp only [List.mem_map] at hmem
    obtain ⟨p, hpf, hpk⟩ := hmem
    have hpmem := List.mem_of_mem_filter hpf
    have hpX : (!(p.1 == X)) = true := (List.mem_filter.mp hpf).2
    have hpair := drainPass_pairs_mem _ ent.joined hpmem
    simp only [List.mem_map] at hpair
    obtain ⟨r, hrmem, hre⟩ := hpair
    have hr1 : r.1 = p.1 := (Prod.mk.injEq _ _ _ _ |>.mp hre).1
    have hr2 : r.2.envId = p.2.envId := (Prod.mk.injEq _ _ _ _ |>.mp hre).2
    have hrX : r.1 = X := h8 r hrmem (by rw [hr2, hpk])
    rw [hr1] at hrX
    simp [hrX] at hpX
  -- the invariant holds right after the poll
  have hun : UnlinkedFromEnv k u ((({ w with
      sup_environments := alErase X w.sup_environments } : World).updateEnv
      k EnvState.send_term_sig).entPoll u) := by
    refine ⟨?_, ?_, hidsafter⟩
    · intro p hp
      rw [entPoll_sup] at hp
      exact h3 p hp
    · rw [entPoll_nextEnvId]
      exact h4 (X, k) (alFind_mem h1)
  refine ⟨?_, ?_, ?_, ?_, ?_, ?_, ?_, ?_⟩
  · rw [hdel]
  · rw [hdel]
    exact alFind_eq_none_of_forall h2
  · intro Y hY
    rw [hdel]
    exact alFind_alErase_ne _ hY
  · rw [hdel]
    exact hW₁k
  · rw [hdel, hnames]
    intro hmem
    have := (List.mem_filter.mp hmem).2
    simp at this
  · rw [hdel]
    exact hnames
  · intro n hn hne
    rw [hdel, hnames]
    exact List.mem_filter.mpr ⟨hn, by simp [hne]⟩
  · intro ops
    rw [hdel]
    have hU := unlinked_steps ops _ hun
    refine ⟨hU.2.2, ?_⟩
    intro t ht hteq
    have htag := entPollReceived_tags _ u t ht
    rw [hteq] at htag
    exact hU.2.2 htag

/-- Witness for claim C3 at the concrete scenario: deleting "X" empties its
registry entry, the entity's next poll leaves exactly the non-"X" entries
(none here), and the entity holds no reader for the deleted id. -/
theorem claim_C3_witness :
    (alFind "X" (c3World.delete_environment "X").1.sup_environments = none) ∧
    (((c3World.delete_environment "X").1.entPoll "0").entJoinedNames "0" =
      (c3World.entJoinedNames "0").filter (fun n => !(n == "X"))) ∧
    (0 ∉ (((c3World.delete_environment "X").1.entPoll "0").steps
      []).entJoinedIds "0") :=
  ⟨(claim_C3 c3World "X" 0 "0" { envId := 0, cursor := 0 } (by decide)
      (by decide) (by decide) (by decide) (by decide) (by decide) (by decide)
      (by decide) (by decide) (by decide) (by decide)).2.1,
   (claim_C3 c3World "X" 0 "0" { envId := 0, cursor := 0 } (by decide)
      (by decide) (by decide) (by decide) (by decide) (by decide) (by decide)
      (by decide) (by decide) (by decide) (by decide)).2.2.2.2.2.1,
   ((claim_C3 c3World "X" 0 "0" { envId := 0, cursor := 0 } (by decide)
      (by decide) (by decide) (by decide) (by decide) (by decide) (by decide)
      (by decide) (by decide) (by decide) (by decide)).2.2.2.2.2.2.2 []).1⟩

end Reee
